import Mathlib

/-! # Instruction construction and method dispatch of the versatus-javascript SDK

A shallow embedding of

* `dist/lib/classes/programs/Program.js` (`Program`),
* `dist/lib/classes/programs/SnakeProgram.js` (`SnakeProgram`),
* `dist/lib/classes/contracts/FungibleTokenContract.js` (`FungibleTokenContract`),
* `examples/erc-20/example-contract.js` (`transfer` on the example state).

JavaScript values are a small tagged type, exceptions are `Except JsError`, and the
functions the first three files import from modules that are not part of the sources at hand
(`formatVerse`, `bigIntToHexString`, the `build…` helper functions, the JSON codec of the
host) are fields of an environment record `Env`, so that every theorem holds for whatever
these helpers compute.
-/

namespace Versatus

/-! ## JavaScript values -/

/-- The JavaScript values that can reach the contract code: what `JSON.parse` yields, what the
host puts into `transaction.value`, and what an amount helper may hand back. A finite Number
is carried as a rational. -/
inductive JsValue where
  | undefined
  | null
  | bool (b : Bool)
  | number (q : ℚ)
  | nan
  | infinity (negative : Bool)
  | bigint (n : Int)
  | str (s : String)
  | arr (items : List JsValue)
  | obj (fields : List (String × JsValue))

/-- What a JavaScript `throw` carries. `error m` is `new Error(m)`; the next three are the
exceptions the runtime itself raises; the last two are the failure kinds of the numeric codec
and of the instruction builders. -/
inductive JsError where
  | error (message : String)
  | typeError
  | rangeError
  | syntaxError
  | invalidAmount
  | incompleteInstruction (field : String)
deriving DecidableEq, Repr

/-- ToBoolean, as used by `!x` and `if (x)`. -/
def JsValue.truthy : JsValue → Bool
  | .undefined => false
  | .null => false
  | .bool b => b
  | .number q => decide (q ≠ 0)
  | .nan => false
  | .infinity _ => true
  | .bigint n => decide (n ≠ 0)
  | .str s => decide (s ≠ "")
  | .arr _ => true
  | .obj _ => true

/-- The nullish coalescing operator `a ?? b`. -/
def JsValue.nullish (a b : JsValue) : JsValue :=
  match a with
  | .undefined => b
  | .null => b
  | v => v

/-- The optional member access `x?.key`, for the keys the sources read (`totalSupply`,
`initializedSupply`, `to`, `symbol`, `name`, `data`, `metadata`): none of them is inherited
from a prototype, so only an object that owns the key yields something other than
`undefined`. -/
def JsValue.optionalGet (x : JsValue) (key : String) : JsValue :=
  match x with
  | .obj fields => (fields.lookup key).getD .undefined
  | _ => .undefined

/-! ### `BigInt(x)` -/

/-- Value of one digit in the given radix. -/
def digitValue (radix : Nat) (c : Char) : Option Nat :=
  let d : Option Nat :=
    if c.isDigit then some (c.toNat - 48)
    else if 97 ≤ c.toNat ∧ c.toNat ≤ 102 then some (c.toNat - 87)
    else if 65 ≤ c.toNat ∧ c.toNat ≤ 70 then some (c.toNat - 55)
    else none
  d.bind fun v => if v < radix then some v else none

/-- A non-empty run of digits in the given radix, most significant first. -/
def digitsValue (radix : Nat) (cs : List Char) : Option Nat :=
  match cs with
  | [] => none
  | _ => cs.foldlM (fun acc c => (digitValue radix c).map fun d => acc * radix + d) 0

/-- StringToBigInt on a string already stripped of surrounding white space: the empty string
is zero, a decimal literal may carry a sign, a `0x`, `0o` or `0b` literal may not. -/
def stringToBigInt (cs : List Char) : Option Int :=
  match cs with
  | [] => some 0
  | '0' :: 'x' :: rest => (digitsValue 16 rest).map Int.ofNat
  | '0' :: 'X' :: rest => (digitsValue 16 rest).map Int.ofNat
  | '0' :: 'o' :: rest => (digitsValue 8 rest).map Int.ofNat
  | '0' :: 'O' :: rest => (digitsValue 8 rest).map Int.ofNat
  | '0' :: 'b' :: rest => (digitsValue 2 rest).map Int.ofNat
  | '0' :: 'B' :: rest => (digitsValue 2 rest).map Int.ofNat
  | '-' :: rest => (digitsValue 10 rest).map fun n => - Int.ofNat n
  | '+' :: rest => (digitsValue 10 rest).map Int.ofNat
  | _ => (digitsValue 10 cs).map Int.ofNat

/-- StrWhiteSpaceChar: the white space and line terminator code points that the string to
number conversions strip from both ends. -/
def isStrWhiteSpace (c : Char) : Bool :=
  let n := c.toNat
  (9 ≤ n && n ≤ 13) || n == 32 || n == 160 || n == 5760 || (8192 ≤ n && n ≤ 8202)
    || n == 8232 || n == 8233 || n == 8239 || n == 8287 || n == 12288 || n == 65279

/-- Strips white space from both ends of a string given as its characters. -/
def trimWhiteSpace (cs : List Char) : List Char :=
  ((cs.dropWhile isStrWhiteSpace).reverse.dropWhile isStrWhiteSpace).reverse

/-- The conversion `BigInt(x)`. A primitive converts as the language defines. An array or an
object first goes through ToPrimitive, which depends on its contents and on the number to
string conversion of the runtime; that step is the argument `ofObject`. -/
def toBigIntWith (ofObject : JsValue → Except JsError Int) : JsValue → Except JsError Int
  | .undefined => .error .typeError
  | .null => .error .typeError
  | .bool b => .ok (if b then 1 else 0)
  | .number q => if q.den = 1 then .ok q.num else .error .rangeError
  | .nan => .error .rangeError
  | .infinity _ => .error .rangeError
  | .bigint n => .ok n
  | .str s =>
    match stringToBigInt (trimWhiteSpace s.data) with
    | some n => .ok n
    | none => .error .syntaxError
  | .arr items => ofObject (.arr items)
  | .obj fields => ofObject (.obj fields)

/-! ## Data model (`Address.js`, `utils.js`, `Token.js`, `Approvals.js`, `Program.js`,
`Instruction` classes, `Outputs.js`)

The classes are plain records: a constructor stores its arguments. -/

/-- Modelled from the spec: the constant `THIS` of `lib/consts.js`, the reserved
self-reference marker "this". -/
def THIS : String := "this"

/-- Modelled from the spec: class `Address`, a wrapper of the address string (also used on the
literal "this"). -/
structure Address where
  address : String
deriving DecidableEq, Repr

/-- Modelled from the spec: class `AddressOrNamespace`, built from the self-reference "this",
from an `Address`, or from a namespace. -/
inductive AddressOrNamespace where
  | this
  | address (a : Address)
  | ns (name : String)
deriving DecidableEq, Repr

/-- Modelled from the spec: class `TokenField`, the name of a mutable token attribute. -/
structure TokenField where
  value : String
deriving DecidableEq, Repr

/-- Modelled from the spec: class `ApprovalsExtend`, a sequence of approval grants. -/
structure ApprovalsExtend where
  value : List JsValue

/-- Modelled from the spec: class `ApprovalsValue`, the approvals payload variant. -/
structure ApprovalsValue where
  value : ApprovalsExtend

/-- Modelled from the spec: class `TokenMetadataExtend`, a mapping of metadata keys to
values. -/
structure TokenMetadataExtend where
  map : JsValue

/-- The payload variants a `TokenFieldValue` is constructed with in the sources. -/
inductive TokenFieldPayload where
  | approvals (v : ApprovalsValue)
  | metadata (v : TokenMetadataExtend)
  | raw (v : JsValue)

/-- Modelled from the spec: class `TokenFieldValue`, a kind (the first constructor argument)
with its payload. -/
structure TokenFieldValue where
  kind : String
  value : TokenFieldPayload

/-- Modelled from the spec: class `TokenUpdateField`, one field mutation. -/
structure TokenUpdateField where
  field : TokenField
  value : TokenFieldValue

/-- Modelled from the spec: class `TokenUpdate` (caller, token, ordered field updates). -/
structure TokenUpdate where
  account : AddressOrNamespace
  token : AddressOrNamespace
  updates : List TokenUpdateField

/-- Modelled from the spec: a program-level field mutation, the result of
`buildProgramUpdateField`. -/
structure ProgramUpdateField where
  field : String
  action : String
  value : JsValue

/-- Modelled from the spec: class `ProgramUpdate` (target, ordered field updates). -/
structure ProgramUpdate where
  account : AddressOrNamespace
  updates : List ProgramUpdateField

/-- Modelled from the spec: class `TokenOrProgramUpdate`, constructed with the tag
`tokenUpdate` or `programUpdate` and the update of that kind. -/
inductive TokenOrProgramUpdate where
  | tokenUpdate (u : TokenUpdate)
  | programUpdate (u : ProgramUpdate)

/-- Modelled from the spec: class `TokenDistribution`. -/
structure TokenDistribution where
  programId : AddressOrNamespace
  amount : String
  receiver : AddressOrNamespace
  updates : List TokenUpdateField

/-- Modelled from the spec: the payload of a `create` instruction. -/
structure CreateInstruction where
  programId : AddressOrNamespace
  totalSupply : String
  initializedSupply : String
  programOwner : Address
  programNamespace : AddressOrNamespace
  distribution : List TokenDistribution

/-- Modelled from the spec: the payload of an `update` instruction, the updates handed to
the builder in call order. -/
structure UpdateInstruction where
  updates : List TokenOrProgramUpdate

/-- Modelled from the spec: the payload of a `transfer` instruction. -/
structure TransferInstruction where
  transferFrom : AddressOrNamespace
  transferTo : AddressOrNamespace
  amount : String
  tokenAddress : Address
deriving DecidableEq, Repr

/-- Modelled from the spec: the payload of a `burn` instruction. -/
structure BurnInstruction where
  programId : AddressOrNamespace
  caller : Address
  tokenAddress : Address
  burnFromAddress : AddressOrNamespace
  amount : String
deriving DecidableEq, Repr

/-- Modelled from the spec: class `Instruction`, the tagged union of the four kinds. -/
inductive Instruction where
  | create (c : CreateInstruction)
  | update (u : UpdateInstruction)
  | transfer (t : TransferInstruction)
  | burn (b : BurnInstruction)

/-- The `transaction` member of the call context. `value` is whatever the host supplied
(`undefined` when absent); `transactionInputs` and `inputs` are the embedded JSON texts. -/
structure Transaction where
  from_ : String
  to_ : String
  programId : String
  value : JsValue
  transactionInputs : String
  inputs : String

/-- ComputeInputs, the call context: `op` names the operation, `inputs` is the JSON text
that `FungibleTokenContract.create` reads. -/
structure ComputeInputs where
  op : String
  inputs : String
  transaction : Transaction

/-- Modelled from the spec: class `Outputs` with its `toJson()` envelope, the echo of the call
context and the instruction list in order. -/
structure Outputs where
  inputs : ComputeInputs
  instructions : List Instruction

/-! ## Instruction builders (`lib/classes/builders.js`)

Each builder is a record of optional fields; a setter fills one field and `build` checks the
required ones in the order the specification lists them. -/

/-- Modelled from the spec: class `TransferInstructionBuilder`, which requires transferFrom,
transferTo, amount and tokenAddress. -/
structure TransferInstructionBuilder where
  transferFrom : Option AddressOrNamespace
  transferTo : Option AddressOrNamespace
  amount : Option String
  tokenAddress : Option Address

/-- The call `new TransferInstructionBuilder()`. -/
def TransferInstructionBuilder.new : TransferInstructionBuilder := ⟨none, none, none, none⟩

/-- Sets the sender of the transfer. -/
def TransferInstructionBuilder.setTransferFrom (b : TransferInstructionBuilder)
    (a : AddressOrNamespace) : TransferInstructionBuilder :=
  { b with transferFrom := some a }

/-- Sets the recipient of the transfer. -/
def TransferInstructionBuilder.setTransferTo (b : TransferInstructionBuilder)
    (a : AddressOrNamespace) : TransferInstructionBuilder :=
  { b with transferTo := some a }

/-- Sets the amount of the transfer. -/
def TransferInstructionBuilder.setAmount (b : TransferInstructionBuilder)
    (amount : String) : TransferInstructionBuilder :=
  { b with amount := some amount }

/-- Sets the token of the transfer. -/
def TransferInstructionBuilder.setTokenAddress (b : TransferInstructionBuilder)
    (a : Address) : TransferInstructionBuilder :=
  { b with tokenAddress := some a }

/-- Finalises a transfer: fails with IncompleteInstruction naming the first missing field. -/
def TransferInstructionBuilder.build (b : TransferInstructionBuilder) :
    Except JsError Instruction :=
  match b.transferFrom, b.transferTo, b.amount, b.tokenAddress with
  | none, _, _, _ => .error (.incompleteInstruction "transferFrom")
  | some _, none, _, _ => .error (.incompleteInstruction "transferTo")
  | some _, some _, none, _ => .error (.incompleteInstruction "amount")
  | some _, some _, some _, none => .error (.incompleteInstruction "tokenAddress")
  | some f, some t, some a, some k => .ok (.transfer ⟨f, t, a, k⟩)

/-- Modelled from the spec: class `BurnInstructionBuilder`, which requires programId, caller,
tokenAddress, burnFromAddress and amount. -/
structure BurnInstructionBuilder where
  programId : Option AddressOrNamespace
  caller : Option Address
  tokenAddress : Option Address
  burnFromAddress : Option AddressOrNamespace
  amount : Option String

/-- The call `new BurnInstructionBuilder()`. -/
def BurnInstructionBuilder.new : BurnInstructionBuilder := ⟨none, none, none, none, none⟩

/-- Sets the program of the burn. -/
def BurnInstructionBuilder.setProgramId (b : BurnInstructionBuilder)
    (a : AddressOrNamespace) : BurnInstructionBuilder :=
  { b with programId := some a }

/-- Sets the caller of the burn. -/
def BurnInstructionBuilder.setCaller (b : BurnInstructionBuilder)
    (a : Address) : BurnInstructionBuilder :=
  { b with caller := some a }

/-- Sets the token of the burn. -/
def BurnInstructionBuilder.setTokenAddress (b : BurnInstructionBuilder)
    (a : Address) : BurnInstructionBuilder :=
  { b with tokenAddress := some a }

/-- Sets the account the amount is burnt from. -/
def BurnInstructionBuilder.setBurnFromAddress (b : BurnInstructionBuilder)
    (a : AddressOrNamespace) : BurnInstructionBuilder :=
  { b with burnFromAddress := some a }

/-- Sets the amount of the burn. -/
def BurnInstructionBuilder.setAmount (b : BurnInstructionBuilder)
    (amount : String) : BurnInstructionBuilder :=
  { b with amount := some amount }

/-- Finalises a burn: fails with IncompleteInstruction naming the first missing field. -/
def BurnInstructionBuilder.build (b : BurnInstructionBuilder) : Except JsError Instruction :=
  match b.programId, b.caller, b.tokenAddress, b.burnFromAddress, b.amount with
  | none, _, _, _, _ => .error (.incompleteInstruction "programId")
  | some _, none, _, _, _ => .error (.incompleteInstruction "caller")
  | some _, some _, none, _, _ => .error (.incompleteInstruction "tokenAddress")
  | some _, some _, some _, none, _ => .error (.incompleteInstruction "burnFromAddress")
  | some _, some _, some _, some _, none => .error (.incompleteInstruction "amount")
  | some p, some c, some t, some f, some a => .ok (.burn ⟨p, c, t, f, a⟩)

/-- Modelled from the spec: class `TokenDistributionBuilder`, which requires programId, amount
and receiver; update fields are optional. -/
structure TokenDistributionBuilder where
  programId : Option AddressOrNamespace
  amount : Option String
  receiver : Option AddressOrNamespace
  updates : List TokenUpdateField

/-- The call `new TokenDistributionBuilder()`. -/
def TokenDistributionBuilder.new : TokenDistributionBuilder := ⟨none, none, none, []⟩

/-- Sets the program of the distribution. -/
def TokenDistributionBuilder.setProgramId (b : TokenDistributionBuilder)
    (a : AddressOrNamespace) : TokenDistributionBuilder :=
  { b with programId := some a }

/-- Sets the amount of the distribution. -/
def TokenDistributionBuilder.setAmount (b : TokenDistributionBuilder)
    (amount : String) : TokenDistributionBuilder :=
  { b with amount := some amount }

/-- Sets the receiver of the distribution. -/
def TokenDistributionBuilder.setReceiver (b : TokenDistributionBuilder)
    (a : AddressOrNamespace) : TokenDistributionBuilder :=
  { b with receiver := some a }

/-- Appends field updates, keeping call order. -/
def TokenDistributionBuilder.extendUpdateFields (b : TokenDistributionBuilder)
    (items : List TokenUpdateField) : TokenDistributionBuilder :=
  { b with updates := b.updates ++ items }

/-- Finalises a distribution: fails with IncompleteInstruction naming the first missing
field. -/
def TokenDistributionBuilder.build (b : TokenDistributionBuilder) :
    Except JsError TokenDistribution :=
  match b.programId, b.amount, b.receiver with
  | none, _, _ => .error (.incompleteInstruction "programId")
  | some _, none, _ => .error (.incompleteInstruction "amount")
  | some _, some _, none => .error (.incompleteInstruction "receiver")
  | some p, some a, some r => .ok ⟨p, a, r, b.updates⟩

/-- Modelled from the spec: class `CreateInstructionBuilder`, which requires programId,
totalSupply, initializedSupply, programOwner and programNamespace and accumulates
distributions in call order. -/
structure CreateInstructionBuilder where
  programId : Option AddressOrNamespace
  totalSupply : Option String
  initializedSupply : Option String
  programOwner : Option Address
  programNamespace : Option AddressOrNamespace
  distribution : List TokenDistribution

/-- The call `new CreateInstructionBuilder()`. -/
def CreateInstructionBuilder.new : CreateInstructionBuilder :=
  ⟨none, none, none, none, none, []⟩

/-- Sets the program of the creation. -/
def CreateInstructionBuilder.setProgramId (b : CreateInstructionBuilder)
    (a : AddressOrNamespace) : CreateInstructionBuilder :=
  { b with programId := some a }

/-- Sets the total supply. -/
def CreateInstructionBuilder.setTotalSupply (b : CreateInstructionBuilder)
    (amount : String) : CreateInstructionBuilder :=
  { b with totalSupply := some amount }

/-- Sets the initialized supply. -/
def CreateInstructionBuilder.setInitializedSupply (b : CreateInstructionBuilder)
    (amount : String) : CreateInstructionBuilder :=
  { b with initializedSupply := some amount }

/-- Sets the owner of the program. -/
def CreateInstructionBuilder.setProgramOwner (b : CreateInstructionBuilder)
    (a : Address) : CreateInstructionBuilder :=
  { b with programOwner := some a }

/-- Sets the namespace of the program. -/
def CreateInstructionBuilder.setProgramNamespace (b : CreateInstructionBuilder)
    (a : AddressOrNamespace) : CreateInstructionBuilder :=
  { b with programNamespace := some a }

/-- Appends one distribution, keeping call order. -/
def CreateInstructionBuilder.addTokenDistribution (b : CreateInstructionBuilder)
    (d : TokenDistribution) : CreateInstructionBuilder :=
  { b with distribution := b.distribution ++ [d] }

/-- Finalises a creation: fails with IncompleteInstruction naming the first missing field. -/
def CreateInstructionBuilder.build (b : CreateInstructionBuilder) :
    Except JsError Instruction :=
  match b.programId, b.totalSupply, b.initializedSupply, b.programOwner,
    b.programNamespace with
  | none, _, _, _, _ => .error (.incompleteInstruction "programId")
  | some _, none, _, _, _ => .error (.incompleteInstruction "totalSupply")
  | some _, some _, none, _, _ => .error (.incompleteInstruction "initializedSupply")
  | some _, some _, some _, none, _ => .error (.incompleteInstruction "programOwner")
  | some _, some _, some _, some _, none => .error (.incompleteInstruction "programNamespace")
  | some p, some t, some i, some o, some n => .ok (.create ⟨p, t, i, o, n, b.distribution⟩)

/-- Modelled from the spec: class `TokenUpdateBuilder`, which requires a token address and at
least one update and keeps the updates in call order. -/
structure TokenUpdateBuilder where
  token : Option AddressOrNamespace
  updates : List TokenOrProgramUpdate

/-- The call `new TokenUpdateBuilder()`. -/
def TokenUpdateBuilder.new : TokenUpdateBuilder := ⟨none, []⟩

/-- Sets the token the update is for. -/
def TokenUpdateBuilder.addTokenAddress (b : TokenUpdateBuilder)
    (a : AddressOrNamespace) : TokenUpdateBuilder :=
  { b with token := some a }

/-- Appends one update, keeping call order. -/
def TokenUpdateBuilder.addUpdateField (b : TokenUpdateBuilder)
    (u : TokenOrProgramUpdate) : TokenUpdateBuilder :=
  { b with updates := b.updates ++ [u] }

/-- Finalises an update: fails with IncompleteInstruction when the token address or every
update is missing. -/
def TokenUpdateBuilder.build (b : TokenUpdateBuilder) : Except JsError Instruction :=
  match b.token, b.updates with
  | none, _ => .error (.incompleteInstruction "tokenAddress")
  | some _, [] => .error (.incompleteInstruction "updateField")
  | some _, u :: us => .ok (.update ⟨u :: us⟩)

/-! ## What the sources import from modules outside the files at hand -/

/-- Argument record of `buildTokenUpdateField` and `buildProgramUpdateField`. -/
structure UpdateFieldArgs where
  field : String
  value : String
  action : String
deriving DecidableEq, Repr

/-- Argument record of `buildTokenDistributionInstruction`. -/
structure TokenDistributionArgs where
  programId : String
  initializedSupply : JsValue
  to_ : JsValue
  tokenUpdates : List TokenUpdateField

/-- Argument record of `buildCreateInstruction`. -/
structure CreateInstructionArgs where
  from_ : String
  initializedSupply : JsValue
  totalSupply : JsValue
  programId : String
  programOwner : String
  programNamespace : String
  distributionInstruction : TokenDistribution

/-- Argument record of `buildBurnInstruction`. -/
structure BurnInstructionArgs where
  from_ : String
  caller : String
  programId : String
  tokenAddress : String
  amount : JsValue

/-- Argument record of `buildMintInstructions`; the two values are BigInts. -/
structure MintInstructionsArgs where
  from_ : String
  programId : String
  paymentTokenAddress : String
  paymentValue : Int
  returnedValue : Int
deriving DecidableEq, Repr

/-- The functions and constants that `Program.js`, `SnakeProgram.js` and
`FungibleTokenContract.js` use without defining them: the JSON codec of the runtime, the step
of `BigInt` that depends on the contents of an object, the helpers of `lib/utils.js` and
`lib/helpers.js`, the constant `ETH_PROGRAM_ADDRESS` of `lib/consts.js` and the helper
functions of `lib/builders.js`. Each is a pure function that either returns or throws. A
helper that hands back an `Error` object, which its caller then throws
(`if (x instanceof Error) throw x`), is the `error` case as well. -/
structure Env where
  jsonParse : String → Except JsError JsValue
  jsonStringify : JsValue → Except JsError String
  bigIntOfObject : JsValue → Except JsError Int
  formatVerse : JsValue → Except JsError JsValue
  bigIntToHexString : Int → Except JsError String
  ETH_PROGRAM_ADDRESS : String
  buildTokenUpdateField : UpdateFieldArgs → Except JsError TokenUpdateField
  buildProgramUpdateField : UpdateFieldArgs → Except JsError ProgramUpdateField
  buildUpdateInstruction : TokenOrProgramUpdate → Except JsError Instruction
  buildTokenDistributionInstruction : TokenDistributionArgs → Except JsError TokenDistribution
  buildCreateInstruction : CreateInstructionArgs → Except JsError Instruction
  buildBurnInstruction : BurnInstructionArgs → Except JsError Instruction
  buildMintInstructions : MintInstructionsArgs → Except JsError (List Instruction)

/-- The conversion `BigInt(x)` in the environment. -/
def Env.toBigInt (env : Env) (x : JsValue) : Except JsError Int :=
  toBigIntWith env.bigIntOfObject x

/-- The member access `x.key` on a parsed JSON value: a TypeError on `null` and
`undefined`. -/
def JsValue.member (x : JsValue) (key : String) : Except JsError JsValue :=
  match x with
  | .undefined => .error .typeError
  | .null => .error .typeError
  | v => .ok (v.optionalGet key)

/-! ## Executions with a call trace

`Program` and `SnakeProgram` are run in a writer over `Except`: next to the outcome, an
execution records which handlers, builder helpers (with their arguments) and inherited
built-ins were called, in call order. -/

/-- A call of one of the builder helpers of `lib/builders.js`, with its argument. -/
inductive BuilderCall where
  | buildTokenUpdateField (args : UpdateFieldArgs)
  | buildProgramUpdateField (args : UpdateFieldArgs)
  | buildUpdateInstruction (update : TokenOrProgramUpdate)
  | buildTokenDistributionInstruction (args : TokenDistributionArgs)
  | buildCreateInstruction (args : CreateInstructionArgs)
  | buildBurnInstruction (args : BurnInstructionArgs)
  | buildMintInstructions (args : MintInstructionsArgs)

/-- One recorded call: of a handler of a method table, of a builder helper, or of a member
inherited from `Object.prototype`. -/
inductive Event where
  | handler (name : String)
  | builder (call : BuilderCall)
  | builtin (name : String)

/-- An execution: the calls made so far and the outcome. -/
structure Exec (α : Type) where
  trace : List Event
  result : Except JsError α

/-- Returning a value calls nothing. -/
def Exec.pure {α : Type} (a : α) : Exec α := ⟨[], .ok a⟩

/-- Sequencing: a throw ends the execution; otherwise the calls of the continuation follow. -/
def Exec.bind {α β : Type} (m : Exec α) (f : α → Exec β) : Exec β :=
  match m.result with
  | .error e => ⟨m.trace, .error e⟩
  | .ok a => ⟨m.trace ++ (f a).trace, (f a).result⟩

instance : Monad Exec where
  pure := Exec.pure
  bind := Exec.bind

/-- The statement `throw e`. -/
def Exec.throw {α : Type} (e : JsError) : Exec α := ⟨[], .error e⟩

/-- An expression that calls no handler and no builder helper. -/
def Exec.eval {α : Type} (r : Except JsError α) : Exec α := ⟨[], r⟩

/-- The call `buildTokenUpdateField(args)`. -/
def Exec.buildTokenUpdateField (env : Env) (args : UpdateFieldArgs) : Exec TokenUpdateField :=
  ⟨[.builder (.buildTokenUpdateField args)], env.buildTokenUpdateField args⟩

/-- The call `buildProgramUpdateField(args)`. -/
def Exec.buildProgramUpdateField (env : Env) (args : UpdateFieldArgs) :
    Exec ProgramUpdateField :=
  ⟨[.builder (.buildProgramUpdateField args)], env.buildProgramUpdateField args⟩

/-- The call of `buildUpdateInstruction` on the record holding `update`. -/
def Exec.buildUpdateInstruction (env : Env) (update : TokenOrProgramUpdate) :
    Exec Instruction :=
  ⟨[.builder (.buildUpdateInstruction update)], env.buildUpdateInstruction update⟩

/-- The call `buildTokenDistributionInstruction(args)`. -/
def Exec.buildTokenDistributionInstruction (env : Env) (args : TokenDistributionArgs) :
    Exec TokenDistribution :=
  ⟨[.builder (.buildTokenDistributionInstruction args)],
    env.buildTokenDistributionInstruction args⟩

/-- The call `buildCreateInstruction(args)`. -/
def Exec.buildCreateInstruction (env : Env) (args : CreateInstructionArgs) :
    Exec Instruction :=
  ⟨[.builder (.buildCreateInstruction args)], env.buildCreateInstruction args⟩

/-- The call `buildBurnInstruction(args)`. -/
def Exec.buildBurnInstruction (env : Env) (args : BurnInstructionArgs) : Exec Instruction :=
  ⟨[.builder (.buildBurnInstruction args)], env.buildBurnInstruction args⟩

/-- The call `buildMintInstructions(args)`. -/
def Exec.buildMintInstructions (env : Env) (args : MintInstructionsArgs) :
    Exec (List Instruction) :=
  ⟨[.builder (.buildMintInstructions args)], env.buildMintInstructions args⟩

/-- A call of the handler `name` whose body runs as `m`. -/
def Exec.handler {α : Type} (name : String) (m : Exec α) : Exec α :=
  ⟨.handler name :: m.trace, m.result⟩

/-- A call of the inherited built-in `name` with outcome `r`. -/
def Exec.builtin {α : Type} (name : String) (r : Except JsError α) : Exec α :=
  ⟨[.builtin name], r⟩

/-! ## `Program` (`dist/lib/classes/programs/Program.js`) -/

/-- The method `Program.create`. -/
def Program.create (env : Env) (computeInputs : ComputeInputs) : Exec Outputs := do
  let transaction := computeInputs.transaction
  let transactionInputs := transaction.transactionInputs
  let from_ := transaction.from_
  let txInputs ← Exec.eval (env.jsonParse transactionInputs)
  let totalSupply ← Exec.eval (env.formatVerse (txInputs.optionalGet "totalSupply"))
  let initializedSupply ←
    Exec.eval (env.formatVerse (txInputs.optionalGet "initializedSupply"))
  let to_ := (txInputs.optionalGet "to").nullish (.str from_)
  let symbol := txInputs.optionalGet "symbol"
  let name := txInputs.optionalGet "name"
  if !totalSupply.truthy || !initializedSupply.truthy then
    Exec.throw (.error "Invalid totalSupply or initializedSupply")
  else if !symbol.truthy || !name.truthy then
    Exec.throw (.error "Invalid symbol or name")
  else do
    let tokenValue ← Exec.eval (env.jsonStringify
      (.obj [("symbol", symbol), ("name", name), ("totalSupply", totalSupply)]))
    let tokenUpdateField ← Exec.buildTokenUpdateField env
      ⟨"metadata", tokenValue, "extend"⟩
    let tokenUpdates := [tokenUpdateField]
    let programValue ← Exec.eval (env.jsonStringify
      (.obj [("symbol", symbol), ("name", name), ("totalSupply", totalSupply)]))
    let programUpdateField ← Exec.buildProgramUpdateField env
      ⟨"metadata", programValue, "extend"⟩
    let programUpdates := [programUpdateField]
    let programMetadataUpdateInstruction ← Exec.buildUpdateInstruction env
      (.programUpdate ⟨.this, programUpdates⟩)
    let distributionInstruction ← Exec.buildTokenDistributionInstruction env
      ⟨THIS, initializedSupply, to_, tokenUpdates⟩
    let createAndDistributeInstruction ← Exec.buildCreateInstruction env
      ⟨from_, initializedSupply, totalSupply, THIS, from_, THIS, distributionInstruction⟩
    return ⟨computeInputs, [createAndDistributeInstruction, programMetadataUpdateInstruction]⟩

/-- The method `Program.update`. -/
def Program.update (env : Env) (computeInputs : ComputeInputs) : Exec Outputs := do
  let transaction := computeInputs.transaction
  let transactionInputs := transaction.transactionInputs
  let parsedTransactionInputs ← Exec.eval (env.jsonParse transactionInputs)
  let data := (parsedTransactionInputs.optionalGet "data").nullish .undefined
  let metadata := (parsedTransactionInputs.optionalGet "metadata").nullish .undefined
  let mut programUpdates : List ProgramUpdateField := []
  if metadata.truthy then
    let value ← Exec.eval (env.jsonStringify metadata)
    let fieldUpdate ← Exec.buildProgramUpdateField env
      ⟨"metadata", value, "extend"⟩
    programUpdates := programUpdates ++ [fieldUpdate]
  if data.truthy then
    let value ← Exec.eval (env.jsonStringify data)
    let fieldUpdate ← Exec.buildProgramUpdateField env
      ⟨"data", value, "extend"⟩
    programUpdates := programUpdates ++ [fieldUpdate]
  let programMetadataUpdateInstruction ← Exec.buildUpdateInstruction env
    (.programUpdate ⟨.this, programUpdates⟩)
  return ⟨computeInputs, [programMetadataUpdateInstruction]⟩

/-- What a call of `executeMethod` can hand back: the envelope of a handler, or what a
function inherited from `Object.prototype` returns. -/
inductive Returned where
  | outputs (o : Outputs)
  | string (s : String)
  | object (o : ComputeInputs)

/-- The own properties of a `methodStrategies` object: operation name and bound handler. -/
abbrev MethodTable := List (String × (ComputeInputs → Exec Outputs))

/-- The table the constructor of `Program` builds. -/
def Program.methodStrategies (env : Env) : MethodTable :=
  [("create", Program.create env), ("update", Program.update env)]

/-- The property names of `Object.prototype`, which every object literal inherits. -/
def objectPrototypeKeys : List String :=
  ["constructor", "__defineGetter__", "__defineSetter__", "hasOwnProperty",
   "__lookupGetter__", "__lookupSetter__", "isPrototypeOf", "propertyIsEnumerable",
   "toString", "valueOf", "__proto__", "toLocaleString"]

/-- The value of `methodStrategies[op]`: a handler of the table, or a member inherited from
`Object.prototype`; `none` stands for `undefined`. -/
inductive Strategy where
  | method (name : String) (run : ComputeInputs → Exec Outputs)
  | inherited (key : String)

/-- The property read `methodStrategies[op]`: own properties first, then the prototype. -/
def MethodTable.get (table : MethodTable) (op : String) : Option Strategy :=
  match table.lookup op with
  | some run => some (.method op run)
  | none => if op ∈ objectPrototypeKeys then some (.inherited op) else none

/-- The plain call `f(inputs)` of a member of `Object.prototype`, in strict code, where `this`
is `undefined`: `Object(inputs)` hands the object back, `toString` names the undefined
receiver, the accessor value under `__proto__` is not callable, and every other member fails
to convert its receiver to an object. -/
def callInherited (key : String) (inputs : ComputeInputs) : Except JsError Returned :=
  if key = "constructor" then .ok (.object inputs)
  else if key = "toString" then .ok (.string "[object Undefined]")
  else .error .typeError

/-- The call `strategy(inputs)`. -/
def Strategy.call (strategy : Strategy) (inputs : ComputeInputs) : Exec Returned :=
  match strategy with
  | .method name run => Exec.handler name (do
      let out ← run inputs
      return .outputs out)
  | .inherited key => Exec.builtin key (callInherited key inputs)

/-- The method `executeMethod` over the table of the instance. Every handler and every
inherited member is truthy, so the test `if (strategy)` fails on `undefined` only. -/
def executeMethodOf (table : MethodTable) (inputs : ComputeInputs) : Exec Returned :=
  let op := inputs.op
  match table.get op with
  | some strategy => strategy.call inputs
  | none => Exec.throw (.error ("Unknown method: " ++ op))

/-- The method `Program.executeMethod`. -/
def Program.executeMethod (env : Env) (inputs : ComputeInputs) : Exec Returned :=
  executeMethodOf (Program.methodStrategies env) inputs

/-- The method `Program.start`. -/
def Program.start (env : Env) (computeInputs : ComputeInputs) : Exec Returned :=
  Program.executeMethod env computeInputs

/-! ## `SnakeProgram` (`dist/lib/classes/programs/SnakeProgram.js`) -/

/-- The method `SnakeProgram.burn`. -/
def SnakeProgram.burn (env : Env) (computeInputs : ComputeInputs) : Exec Outputs := do
  let transaction := computeInputs.transaction
  let burnInstruction ← Exec.buildBurnInstruction env
    ⟨transaction.from_, transaction.from_, THIS, transaction.programId, transaction.value⟩
  return ⟨computeInputs, [burnInstruction]⟩

/-- The method `SnakeProgram.mint`. The operator `/` on BigInts truncates toward zero. -/
def SnakeProgram.mint (env : Env) (computeInputs : ComputeInputs) : Exec Outputs := do
  let transaction := computeInputs.transaction
  let inputTokenAddress := env.ETH_PROGRAM_ADDRESS
  let paymentValue ← Exec.eval (env.toBigInt transaction.value)
  let conversionRate : Int := 2
  let returnedValue := Int.tdiv paymentValue conversionRate
  let mintInstructions ← Exec.buildMintInstructions env
    ⟨transaction.from_, transaction.programId, inputTokenAddress, paymentValue, returnedValue⟩
  return ⟨computeInputs, mintInstructions⟩

/-- The table the constructor of `SnakeProgram` builds: `Object.assign` adds `burn` and
`mint` to the table of `Program`. -/
def SnakeProgram.methodStrategies (env : Env) : MethodTable :=
  Program.methodStrategies env ++ [("burn", SnakeProgram.burn env), ("mint", SnakeProgram.mint env)]

/-! ## `FungibleTokenContract` (`dist/lib/classes/contracts/FungibleTokenContract.js`) -/

/-- The method `FungibleTokenContract.approve`. -/
def FungibleTokenContract.approve (env : Env) (inputs : ComputeInputs) :
    Except JsError Outputs := do
  let transaction := inputs.transaction
  let approveData := transaction.inputs
  let programId := transaction.programId
  let tokenId := AddressOrNamespace.address ⟨programId⟩
  let caller : Address := ⟨transaction.from_⟩
  let grant ← env.jsonParse approveData
  let update : TokenUpdateField := ⟨⟨"approvals"⟩, ⟨"extend", .approvals ⟨⟨[grant]⟩⟩⟩⟩
  let tokenUpdate : TokenUpdate := ⟨.address caller, tokenId, [update]⟩
  let tokenOrProgramUpdate := TokenOrProgramUpdate.tokenUpdate tokenUpdate
  let updateInstruction ←
    (TokenUpdateBuilder.new
      |>.addTokenAddress tokenId
      |>.addUpdateField tokenOrProgramUpdate
      |>.build)
  return ⟨inputs, [updateInstruction]⟩

/-- The method `FungibleTokenContract.burn`. -/
def FungibleTokenContract.burn (env : Env) (inputs : ComputeInputs) :
    Except JsError Outputs := do
  let transaction := inputs.transaction
  let caller : Address := ⟨transaction.from_⟩
  let amount ← env.bigIntToHexString (← env.toBigInt (transaction.value.nullish (.number 0)))
  let burnInstruction ←
    (BurnInstructionBuilder.new
      |>.setProgramId .this
      |>.setCaller caller
      |>.setTokenAddress ⟨"this"⟩
      |>.setBurnFromAddress (.address caller)
      |>.setAmount amount
      |>.build)
  return ⟨inputs, [burnInstruction]⟩

/-- The method `FungibleTokenContract.create`. -/
def FungibleTokenContract.create (env : Env) (inputs : ComputeInputs) :
    Except JsError Outputs := do
  let transaction := inputs.transaction
  let contractInputs := inputs.inputs
  let caller : Address := ⟨transaction.from_⟩
  let totalSupply ← env.bigIntToHexString
    (← env.toBigInt (← (← env.jsonParse contractInputs).member "totalSupply"))
  let initializedSupply ← env.bigIntToHexString 0
  let createInstruction ←
    (CreateInstructionBuilder.new
      |>.setProgramId .this
      |>.setTotalSupply totalSupply
      |>.setInitializedSupply initializedSupply
      |>.setProgramOwner caller
      |>.setProgramNamespace .this
      |>.build)
  return ⟨inputs, [createInstruction]⟩

/-- The method `FungibleTokenContract.createAndDistribute`. -/
def FungibleTokenContract.createAndDistribute (env : Env) (inputs : ComputeInputs) :
    Except JsError Outputs := do
  let transaction := inputs.transaction
  let createMetadata := transaction.inputs
  let caller : Address := ⟨transaction.from_⟩
  let update : TokenUpdateField :=
    ⟨⟨"metadata"⟩, ⟨"metadata", .metadata ⟨← env.jsonParse createMetadata⟩⟩⟩
  let totalSupply := ((← env.jsonParse createMetadata).optionalGet "totalSupply").nullish
    (.number 0)
  let initalizedSupply := transaction.value.nullish (.number 0)
  let initUpdates := [update]
  let distributionAmount ← env.bigIntToHexString (← env.toBigInt initalizedSupply)
  let initDistribution ←
    (TokenDistributionBuilder.new
      |>.setProgramId .this
      |>.setAmount distributionAmount
      |>.setReceiver (.address caller)
      |>.extendUpdateFields initUpdates
      |>.build)
  let totalSupplyHex ← env.bigIntToHexString (← env.toBigInt totalSupply)
  let initializedSupplyHex ← env.bigIntToHexString (← env.toBigInt initalizedSupply)
  let createInstruction ←
    (CreateInstructionBuilder.new
      |>.setProgramId .this
      |>.setTotalSupply totalSupplyHex
      |>.setInitializedSupply initializedSupplyHex
      |>.setProgramOwner caller
      |>.setProgramNamespace .this
      |>.addTokenDistribution initDistribution
      |>.build)
  return ⟨inputs, [createInstruction]⟩

/-- The method `FungibleTokenContract.mint`. The rate is `BigInt("0x1")`, that is 1, and `/`
on BigInts truncates toward zero. -/
def FungibleTokenContract.mint (env : Env) (inputs : ComputeInputs) :
    Except JsError Outputs := do
  let transaction := inputs.transaction
  let caller : Address := ⟨transaction.from_⟩
  let payable ← env.toBigInt (transaction.value.nullish (.number 0))
  let payableToken : Address := ⟨transaction.programId⟩
  let minter := transaction.to_
  let amount ← env.bigIntToHexString (Int.tdiv payable 1)
  let transferTo ←
    (TransferInstructionBuilder.new
      |>.setTransferFrom .this
      |>.setTransferTo (.address caller)
      |>.setAmount amount
      |>.setTokenAddress ⟨minter⟩
      |>.build)
  let payableHex ← env.bigIntToHexString payable
  let transferFrom ←
    (TransferInstructionBuilder.new
      |>.setTransferFrom (.address caller)
      |>.setTransferTo .this
      |>.setAmount payableHex
      |>.setTokenAddress payableToken
      |>.build)
  return ⟨inputs, [transferTo, transferFrom]⟩

/-! ## A sample environment

A concrete `Env` on which the embedding can be evaluated. Its numeric codec and builders
follow the specification where it describes them; its JSON reader and printer cover the JSON
texts used in the examples below. -/

/-- Skips JSON white space. -/
def JSON.skipWs : List Char → List Char
  | [] => []
  | c :: cs => if c = ' ' ∨ c = '\t' ∨ c = '\n' ∨ c = '\r' then JSON.skipWs cs else c :: cs

/-- Reads the rest of a JSON string, after its opening quote; `acc` holds the characters
read so far, last first. Escapes of surrogate code units are outside this reader. -/
def JSON.string : List Char → List Char → Option (String × List Char)
  | [], _ => none
  | '"' :: rest, acc => some (String.mk acc.reverse, rest)
  | '\\' :: '"' :: rest, acc => JSON.string rest ('"' :: acc)
  | '\\' :: '\\' :: rest, acc => JSON.string rest ('\\' :: acc)
  | '\\' :: '/' :: rest, acc => JSON.string rest ('/' :: acc)
  | '\\' :: 'b' :: rest, acc => JSON.string rest (Char.ofNat 8 :: acc)
  | '\\' :: 'f' :: rest, acc => JSON.string rest (Char.ofNat 12 :: acc)
  | '\\' :: 'n' :: rest, acc => JSON.string rest ('\n' :: acc)
  | '\\' :: 'r' :: rest, acc => JSON.string rest ('\r' :: acc)
  | '\\' :: 't' :: rest, acc => JSON.string rest ('\t' :: acc)
  | '\\' :: 'u' :: a :: b :: c :: d :: rest, acc =>
    match digitsValue 16 [a, b, c, d] with
    | some n => if 55296 ≤ n ∧ n ≤ 57343 then none else JSON.string rest (Char.ofNat n :: acc)
    | none => none
  | '\\' :: _, _ => none
  | c :: rest, acc => if c.toNat < 32 then none else JSON.string rest (c :: acc)

/-- Splits off the leading decimal digits. -/
def JSON.digits : List Char → List Char × List Char
  | [] => ([], [])
  | c :: cs =>
    if c.isDigit then ((JSON.digits cs).1.cons c, (JSON.digits cs).2) else ([], c :: cs)

/-- Value of a run of decimal digits, the empty run counting as zero. -/
def JSON.natOf (ds : List Char) : Nat :=
  ds.foldl (fun acc c => acc * 10 + (c.toNat - 48)) 0

/-- Reads the exponent part of a JSON number, if there is one. -/
def JSON.exponent : List Char → Option (Int × List Char)
  | 'e' :: '-' :: cs | 'E' :: '-' :: cs =>
    match JSON.digits cs with
    | ([], _) => none
    | (ds, rest) => some (- Int.ofNat (JSON.natOf ds), rest)
  | 'e' :: '+' :: cs | 'E' :: '+' :: cs =>
    match JSON.digits cs with
    | ([], _) => none
    | (ds, rest) => some (Int.ofNat (JSON.natOf ds), rest)
  | 'e' :: cs | 'E' :: cs =>
    match JSON.digits cs with
    | ([], _) => none
    | (ds, rest) => some (Int.ofNat (JSON.natOf ds), rest)
  | cs => some (0, cs)

/-- Reads the fraction part of a JSON number, if there is one: its digits and the rest. -/
def JSON.fraction : List Char → Option (List Char × List Char)
  | '.' :: cs =>
    match JSON.digits cs with
    | ([], _) => none
    | (ds, rest) => some (ds, rest)
  | cs => some ([], cs)

/-- Reads an unsigned JSON number: an integer part without a superfluous leading zero, then
an optional fraction and exponent. -/
def JSON.unsigned (cs : List Char) : Option (ℚ × List Char) :=
  match JSON.digits cs with
  | ([], _) => none
  | (ds, rest) =>
    if ds.length > 1 ∧ ds.head? = some '0' then none
    else
      match JSON.fraction rest with
      | none => none
      | some (fs, rest1) =>
        match JSON.exponent rest1 with
        | none => none
        | some (e, rest2) =>
          let mantissa : ℚ := (JSON.natOf (ds ++ fs) : ℚ)
          let scale : Int := e - Int.ofNat fs.length
          some (if scale = 0 then mantissa
                else if 0 ≤ scale then mantissa * (10 : ℚ) ^ scale.toNat
                else mantissa / (10 : ℚ) ^ (- scale).toNat, rest2)

/-- Sets an own property: a repeated key keeps its place and takes the later value. -/
def JSON.setKey (fields : List (String × JsValue)) (key : String) (v : JsValue) :
    List (String × JsValue) :=
  if fields.any (fun kv => kv.1 == key) then
    fields.map fun kv => if kv.1 == key then (key, v) else kv
  else fields ++ [(key, v)]

mutual
/-- Reads one JSON value; `fuel` bounds the nesting and the number of members read. -/
def JSON.value : Nat → List Char → Option (JsValue × List Char)
  | 0, _ => none
  | fuel + 1, cs =>
    match JSON.skipWs cs with
    | '{' :: rest =>
      match JSON.skipWs rest with
      | '}' :: rest1 => some (.obj [], rest1)
      | _ => JSON.members fuel rest []
    | '[' :: rest =>
      match JSON.skipWs rest with
      | ']' :: rest1 => some (.arr [], rest1)
      | _ => JSON.elements fuel rest []
    | '"' :: rest => (JSON.string rest []).map fun r => (.str r.1, r.2)
    | 't' :: 'r' :: 'u' :: 'e' :: rest => some (.bool true, rest)
    | 'f' :: 'a' :: 'l' :: 's' :: 'e' :: rest => some (.bool false, rest)
    | 'n' :: 'u' :: 'l' :: 'l' :: rest => some (.null, rest)
    | '-' :: rest => (JSON.unsigned rest).map fun r => (.number (- r.1), r.2)
    | other => (JSON.unsigned other).map fun r => (.number r.1, r.2)
/-- Reads the members of an object up to its closing brace. -/
def JSON.members : Nat → List Char → List (String × JsValue) → Option (JsValue × List Char)
  | 0, _, _ => none
  | fuel + 1, cs, acc =>
    match JSON.skipWs cs with
    | '"' :: rest =>
      match JSON.string rest [] with
      | none => none
      | some (key, rest1) =>
        match JSON.skipWs rest1 with
        | ':' :: rest2 =>
          match JSON.value fuel rest2 with
          | none => none
          | some (v, rest3) =>
            match JSON.skipWs rest3 with
            | ',' :: rest4 => JSON.members fuel rest4 (JSON.setKey acc key v)
            | '}' :: rest4 => some (.obj (JSON.setKey acc key v), rest4)
            | _ => none
        | _ => none
    | _ => none
/-- Reads the elements of an array up to its closing bracket. -/
def JSON.elements : Nat → List Char → List JsValue → Option (JsValue × List Char)
  | 0, _, _ => none
  | fuel + 1, cs, acc =>
    match JSON.value fuel cs with
    | none => none
    | some (v, rest) =>
      match JSON.skipWs rest with
      | ',' :: rest1 => JSON.elements fuel rest1 (acc ++ [v])
      | ']' :: rest1 => some (.arr (acc ++ [v]), rest1)
      | _ => none
end

/-- A reader of JSON texts, after `JSON.parse`: one value, then nothing but white space;
anything else is a SyntaxError. -/
def JSON.parse (text : String) : Except JsError JsValue :=
  match JSON.value (text.data.length + 1) text.data with
  | some (v, rest) => if (JSON.skipWs rest).isEmpty then .ok v else .error .syntaxError
  | none => .error .syntaxError

/-- Modelled from the spec: `bigIntToHexString` of `lib/helpers.js`, which encodes a
non-negative big integer as a lower-case hex string of minimal length after "0x" ("0x0" for
zero) and fails with InvalidAmount on a negative one. -/
def bigIntToHexString (value : Int) : Except JsError String :=
  if value < 0 then .error .invalidAmount
  else .ok ("0x" ++ String.mk (Nat.toDigits 16 value.toNat))

/-- Escapes one character of a JSON string. -/
def JSON.escape (c : Char) : List Char :=
  if c = '"' then ['\\', '"']
  else if c = '\\' then ['\\', '\\']
  else if c = '\n' then ['\\', 'n']
  else if c = '\r' then ['\\', 'r']
  else if c = '\t' then ['\\', 't']
  else if c.toNat = 8 then ['\\', 'b']
  else if c.toNat = 12 then ['\\', 'f']
  else if c.toNat < 32 then
    ['\\', 'u', '0', '0', Nat.digitChar (c.toNat / 16), Nat.digitChar (c.toNat % 16)]
  else [c]

/-- Prints a string as a JSON string. -/
def JSON.quote (s : String) : List Char :=
  '"' :: (s.data.flatMap JSON.escape ++ ['"'])

mutual
/-- A printer of JSON texts, after `JSON.stringify`, for the values whose numbers are
integers below 10^21 in magnitude; members that are `undefined` are left out of an object and
printed as `null` in an array. A BigInt is a TypeError, as in the runtime. -/
def JSON.print : JsValue → Except JsError (List Char)
  | .undefined => .error .typeError
  | .null => .ok "null".data
  | .bool b => .ok (if b then "true".data else "false".data)
  | .number q =>
    if q.den = 1 ∧ q.num.natAbs < 10 ^ 21 then
      .ok ((if q.num < 0 then ['-'] else []) ++ Nat.toDigits 10 q.num.natAbs)
    else .error .rangeError
  | .nan => .ok "null".data
  | .infinity _ => .ok "null".data
  | .bigint _ => .error .typeError
  | .str s => .ok (JSON.quote s)
  | .arr items => (JSON.printItems items).map fun body => '[' :: (body ++ [']'])
  | .obj fields => (JSON.printFields fields true).map fun body => '{' :: (body ++ ['}'])
/-- Prints the elements of an array, separated by commas. -/
def JSON.printItems : List JsValue → Except JsError (List Char)
  | [] => .ok []
  | [v] => match v with
    | .undefined => .ok "null".data
    | _ => JSON.print v
  | v :: w :: rest => do
    let a ← (match v with
      | .undefined => .ok "null".data
      | _ => JSON.print v)
    let b ← JSON.printItems (w :: rest)
    return a ++ ',' :: b
/-- Prints the members of an object; `first` tells that no member was printed yet. -/
def JSON.printFields : List (String × JsValue) → Bool → Except JsError (List Char)
  | [], _ => .ok []
  | (_, .undefined) :: rest, first => JSON.printFields rest first
  | (k, v) :: rest, first => do
    let a ← JSON.print v
    let b ← JSON.printFields rest false
    return (if first then [] else [',']) ++ JSON.quote k ++ ':' :: a ++ b
end

/-- The printer as a function to strings. -/
def JSON.stringify (v : JsValue) : Except JsError String :=
  (JSON.print v).map String.mk

/-- An address argument given as a string: the marker "this" or a plain address. -/
def sampleAddress (s : String) : AddressOrNamespace :=
  if s = THIS then .this else .address ⟨s⟩

/-- An amount argument that has to be a string already. -/
def sampleAmount (v : JsValue) : Except JsError String :=
  match v with
  | .str s => .ok s
  | _ => .error .invalidAmount

/-- The sample environment. `jsonParse`, `jsonStringify` and `bigIntToHexString` are the
functions above. `formatVerse`, which the specification does not describe, is taken to be the
hex string of the BigInt conversion. The builder helpers go through the builders of the
specification; `buildMintInstructions` gives the proceeds transfer and then the payment
transfer. An array or object is taken not to convert to a BigInt. -/
def sampleEnv : Env where
  jsonParse := JSON.parse
  jsonStringify := JSON.stringify
  bigIntOfObject := fun _ => .error .syntaxError
  formatVerse := fun v => do
    let n ← toBigIntWith (fun _ => .error .syntaxError) v
    let h ← bigIntToHexString n
    return .str h
  bigIntToHexString := bigIntToHexString
  ETH_PROGRAM_ADDRESS := "0x0000000000000000000000000000000000000000"
  buildTokenUpdateField := fun args => .ok ⟨⟨args.field⟩, ⟨args.action, .raw (.str args.value)⟩⟩
  buildProgramUpdateField := fun args => .ok ⟨args.field, args.action, .str args.value⟩
  buildUpdateInstruction := fun u => .ok (.update ⟨[u]⟩)
  buildTokenDistributionInstruction := fun args => do
    let amount ← sampleAmount args.initializedSupply
    let receiver ← sampleAmount args.to_
    (TokenDistributionBuilder.new
      |>.setProgramId (sampleAddress args.programId)
      |>.setAmount amount
      |>.setReceiver (sampleAddress receiver)
      |>.extendUpdateFields args.tokenUpdates
      |>.build)
  buildCreateInstruction := fun args => do
    let totalSupply ← sampleAmount args.totalSupply
    let initializedSupply ← sampleAmount args.initializedSupply
    (CreateInstructionBuilder.new
      |>.setProgramId (sampleAddress args.programId)
      |>.setTotalSupply totalSupply
      |>.setInitializedSupply initializedSupply
      |>.setProgramOwner ⟨args.programOwner⟩
      |>.setProgramNamespace (sampleAddress args.programNamespace)
      |>.addTokenDistribution args.distributionInstruction
      |>.build)
  buildBurnInstruction := fun args => do
    let n ← toBigIntWith (fun _ => .error .syntaxError) args.amount
    let amount ← bigIntToHexString n
    (BurnInstructionBuilder.new
      |>.setProgramId (sampleAddress args.programId)
      |>.setCaller ⟨args.caller⟩
      |>.setTokenAddress ⟨args.tokenAddress⟩
      |>.setBurnFromAddress (sampleAddress args.from_)
      |>.setAmount amount
      |>.build)
  buildMintInstructions := fun args => do
    let returned ← bigIntToHexString args.returnedValue
    let payment ← bigIntToHexString args.paymentValue
    let toCaller ←
      (TransferInstructionBuilder.new
        |>.setTransferFrom .this
        |>.setTransferTo (sampleAddress args.from_)
        |>.setAmount returned
        |>.setTokenAddress ⟨args.programId⟩
        |>.build)
    let toProgram ←
      (TransferInstructionBuilder.new
        |>.setTransferFrom (sampleAddress args.from_)
        |>.setTransferTo .this
        |>.setAmount payment
        |>.setTokenAddress ⟨args.paymentTokenAddress⟩
        |>.build)
    return [toCaller, toProgram]

/-- A call context with the given operation, attached value and JSON text; caller "0xA",
recipient "0xT", program "0xP". -/
def sampleCall (op : String) (value : JsValue) (json : String) : ComputeInputs :=
  ⟨op, json, ⟨"0xA", "0xT", "0xP", value, json, json⟩⟩

/-! ## Amounts in the output -/

/-- The amount fields of one instruction: of a create, its total and initialized supply and
the amount of each distribution; of a transfer or a burn, its amount; an update has none. -/
def Instruction.amounts : Instruction → List String
  | .create c => c.totalSupply :: c.initializedSupply :: c.distribution.map (·.amount)
  | .update _ => []
  | .transfer t => [t.amount]
  | .burn b => [b.amount]

/-- The amount fields of an output, in instruction order. -/
def Outputs.amounts (out : Outputs) : List String :=
  out.instructions.flatMap Instruction.amounts

/-! ## The decimal amount parser (`parseAmountToBigInt` of `lib/utils.js`) -/

/-- Value of a run of decimal digits, most significant first; the empty run counts as zero. -/
def digitsToNat (ds : List Char) : Nat :=
  ds.foldl (fun acc c => acc * 10 + (c.toNat - 48)) 0

/-- A non-empty run of decimal digits. -/
def isDigitRun (ds : List Char) : Bool :=
  !ds.isEmpty && ds.all Char.isDigit

/-- Modelled from the spec: `parseAmountToBigInt` on a decimal string. The string is an
integer part, optionally followed by a point and a fraction part, both non-empty runs of
digits; anything else, and a fraction with more digits than the precision, is an
InvalidAmount. The result counts the smallest unit: the digits of the integer part followed
by the fraction padded with zeros to the precision. -/
def parseDecimalString (precision : Nat) (cs : List Char) : Except JsError Int :=
  match cs.span (· != '.') with
  | (whole, []) =>
    if isDigitRun whole then .ok (Int.ofNat (digitsToNat whole * 10 ^ precision))
    else .error .invalidAmount
  | (whole, _ :: frac) =>
    if isDigitRun whole && isDigitRun frac && decide (frac.length ≤ precision) then
      .ok (Int.ofNat (digitsToNat (whole ++ frac ++ List.replicate (precision - frac.length) '0')))
    else .error .invalidAmount

/-- Modelled from the spec: `parseAmountToBigInt`, which takes a decimal amount as a string or
a number and returns the equivalent count of the smallest unit, scaling by ten to the
configured precision; it fails with InvalidAmount on a negative amount and on one that is
not a whole number of smallest units (no truncation). The precision is a parameter. A number
stands for the decimal value it is written as. -/
def parseAmountToBigInt (precision : Nat) : JsValue → Except JsError Int
  | .str s => parseDecimalString precision s.data
  | .number q =>
    if 0 ≤ q ∧ (q * (10 : ℚ) ^ precision).den = 1 then .ok (q * (10 : ℚ) ^ precision).num
    else .error .invalidAmount
  | _ => .error .invalidAmount

/-! ## The ERC-20 example (`examples/erc-20/example-contract.js`)

The example keeps its state in the module-level object `FAKE_ERC20_STATE`; here the state is
passed in and handed back. Its numbers are JavaScript Numbers, that is doubles: the result of
an addition or subtraction of two integers is the double nearest to the exact result. Its
tables are plain objects, which inherit the members of `Object.prototype`. -/

/-- A value held in a table of the example state: an integer-valued Number, NaN, an infinity,
or a string that is not a number (what `+=` leaves on a key that held no number). -/
inductive Erc20.Num where
  | int (n : Int)
  | nan
  | inf (negative : Bool)
  | text
deriving DecidableEq, Repr

/-- How many low bits a magnitude has beyond the 53 bits of a double; `fuel` bounds the
count and is taken as the magnitude itself. -/
def Erc20.excessBits : Nat → Nat → Nat
  | 0, _ => 0
  | fuel + 1, m => if m < 2 ^ 53 then 0 else Erc20.excessBits fuel (m / 2) + 1

/-- The Number that an exact integer result becomes: the nearest double, ties going to the
even significand, and an infinity when that is out of range. With `e` low bits beyond the
53 of a double, the significand `q` is the magnitude without them, rounded up when the
dropped bits are more than half a unit, or exactly half with `q` odd; the rounded magnitude
`q * 2 ^ e` reaches `2 ^ 1024`, the bound of the doubles, when `e` is at least 972, or 971
with `q` rounded up to `2 ^ 53`. -/
def Erc20.toNumber (z : Int) : Erc20.Num :=
  let m := z.natAbs
  let e := Erc20.excessBits m m
  let q := m / 2 ^ e
  let r := m % 2 ^ e
  let rounded := if 2 ^ e < 2 * r ∨ (2 * r = 2 ^ e ∧ q % 2 = 1) then q + 1 else q
  if 972 ≤ e ∨ (e = 971 ∧ rounded = 2 ^ 53) then .inf (decide (z < 0))
  else .int (if z < 0 then - Int.ofNat (rounded * 2 ^ e) else Int.ofNat (rounded * 2 ^ e))

/-- A table of the example state, an object from keys to values, in insertion order. -/
abbrev Erc20.Table := List (String × Erc20.Num)

/-- What the property read `table[key]` yields: an own value, a member inherited from
`Object.prototype` (a function, or the prototype object under `__proto__`), or `undefined`. -/
inductive Erc20.Read where
  | own (v : Erc20.Num)
  | inherited
  | missing
deriving DecidableEq, Repr

/-- The own property of a table under a key, if there is one. -/
def Erc20.Table.own : Erc20.Table → String → Option Erc20.Num
  | [], _ => none
  | (k, v) :: rest, key => if k = key then some v else Erc20.Table.own rest key

/-- The own property write: an own key keeps its place, a new key is added at the end. -/
def Erc20.Table.put : Erc20.Table → String → Erc20.Num → Erc20.Table
  | [], key, v => [(key, v)]
  | (k, w) :: rest, key, v =>
    if k = key then (k, v) :: rest else (k, w) :: Erc20.Table.put rest key v

/-- The property read `table[key]`. The key `__proto__` is the accessor of the prototype and
never an own key; any other key is looked up among the own keys first and then among the
members of `Object.prototype`. -/
def Erc20.Table.get (t : Erc20.Table) (key : String) : Erc20.Read :=
  if key = "__proto__" then .inherited
  else
    match t.own key with
    | some v => .own v
    | none => if key ∈ objectPrototypeKeys then .inherited else .missing

/-- The property write `table[key] = v` of a number or string `v`. Under `__proto__` the
accessor ignores a value that is not an object, so nothing changes; any other key becomes or
stays an own key. -/
def Erc20.Table.set (t : Erc20.Table) (key : String) (v : Erc20.Num) : Erc20.Table :=
  if key = "__proto__" then t else t.put key v

/-- The comparison `x < amount` on what a property read gave, for an integer amount: false on
`undefined`, NaN, a string that is not a number, a function and an object. -/
def Erc20.lessThan (x : Erc20.Read) (amount : Int) : Bool :=
  match x with
  | .own (.int n) => decide (n < amount)
  | .own (.inf negative) => negative
  | _ => false

/-- The difference `x - amount` for an integer amount: the nearest double on a number, NaN on
anything that is not a number. -/
def Erc20.minus (x : Erc20.Read) (amount : Int) : Erc20.Num :=
  match x with
  | .own (.int n) => Erc20.toNumber (n - amount)
  | .own (.inf negative) => .inf negative
  | _ => .nan

/-- The sum `x + amount` for an integer amount: the nearest double on a number, NaN on NaN
and on `undefined`, and a string (the concatenation) on a string, a function and an object. -/
def Erc20.plus (x : Erc20.Read) (amount : Int) : Erc20.Num :=
  match x with
  | .own (.int n) => Erc20.toNumber (n + amount)
  | .own (.inf negative) => .inf negative
  | .own .nan => .nan
  | .own .text => .text
  | .inherited => .text
  | .missing => .nan

/-- The object `FAKE_ERC20_STATE`. -/
structure Erc20.State where
  name : String
  symbol : String
  decimals : Int
  totalSupply : Int
  balances : Erc20.Table
  allowances : List (String × Erc20.Table)
deriving DecidableEq, Repr

/-- The initial value of `FAKE_ERC20_STATE`. -/
def Erc20.FAKE_ERC20_STATE : Erc20.State where
  name := "VRSTSERC"
  symbol := "VRSTSERC"
  decimals := 18
  totalSupply := 100000000
  balances :=
    [("0x1", .int 4200000), ("0x2", .int 0), ("0x3", .int 0), ("0x4", .int 0), ("0x5", .int 0),
     ("0x6", .int 0), ("0x7", .int 0), ("0x8", .int 0), ("0x9", .int 0), ("0xa", .int 0)]
  allowances :=
    [("0x1",
      [("0x2", .int 2000), ("0x3", .int 0), ("0x4", .int 0), ("0x5", .int 0), ("0x6", .int 0),
       ("0x7", .int 0), ("0x8", .int 0), ("0x9", .int 0), ("0xa", .int 0)])]

/-- The function `transfer`: the flag `success` and the state after the call. -/
def Erc20.transfer (state : Erc20.State) (address toAddress : String) (amount : Int) :
    Bool × Erc20.State :=
  if Erc20.lessThan (state.balances.get address) amount then (false, state)
  else
    let debited : Erc20.State :=
      { state with
        balances := state.balances.set address (Erc20.minus (state.balances.get address) amount) }
    let credited : Erc20.State :=
      { debited with
        balances :=
          debited.balances.set toAddress (Erc20.plus (debited.balances.get toAddress) amount) }
    (true, credited)

/-- The exact sum of all balances of a table, which the example itself never computes; NaN
as soon as one value is not an integer. -/
def Erc20.Table.sum : Erc20.Table → Erc20.Num
  | [] => .int 0
  | (_, .int n) :: rest =>
    match Erc20.Table.sum rest with
    | .int total => .int (total + n)
    | _ => .nan
  | _ :: _ => .nan

/-! ## Theorems -/

/-! ### Executions -/

/-- An expression that returns hands its value to the continuation. -/
theorem Exec.bind_eval_ok {α β : Type} (a : α) (f : α → Exec β) :
    (Exec.eval (.ok a) >>= f) = f a := by
  show Exec.bind _ _ = _
  simp [Exec.bind, Exec.eval]

/-- An expression that throws ends the execution with no call recorded. -/
theorem Exec.bind_eval_error {α β : Type} (e : JsError) (f : α → Exec β) :
    (Exec.eval (.error e) >>= f) = Exec.throw e := by
  show Exec.bind _ _ = _
  simp [Exec.bind, Exec.eval, Exec.throw]

/-- Wrapping the returned value keeps the outcome up to the wrapper. -/
theorem Exec.bind_pure_result {α β : Type} (m : Exec α) (f : α → β) :
    (m >>= fun a => Pure.pure (f a)).result = m.result.map f := by
  show (Exec.bind _ _).result = _
  unfold Exec.bind
  cases h : m.result <;> rfl

/-- Wrapping the returned value records no call. -/
theorem Exec.bind_pure_trace {α β : Type} (m : Exec α) (f : α → β) :
    (m >>= fun a => Pure.pure (f a)).trace = m.trace := by
  show (Exec.bind _ _).trace = _
  unfold Exec.bind
  cases h : m.result <;> simp [Pure.pure, Exec.pure]

/-- The floor of half an integer is its quotient by two rounded down. -/
theorem floor_half (v : Int) : ⌊(v : ℚ) / 2⌋ = v / 2 := by
  have h := Rat.floor_intCast_div_natCast v 2
  simpa using h

/-! ### `Program`: dispatch -/

/-- The own properties of the table of `Program` are `create` and `update`. -/
theorem Program.methodStrategies_lookup (env : Env) (op : String) :
    (Program.methodStrategies env).lookup op =
      if op = "create" then some (Program.create env)
      else if op = "update" then some (Program.update env) else none := by
  unfold Program.methodStrategies
  by_cases h1 : op = "create"
  · subst h1; rfl
  · by_cases h2 : op = "update"
    · subst h2; rfl
    · have e1 : (op == "create") = false := by simpa using h1
      have e2 : (op == "update") = false := by simpa using h2
      simp [List.lookup, e1, e2, h1, h2]

/-- An operation name that is neither registered nor a property name of `Object.prototype`
makes `executeMethod` throw the unknown-method error with no call made. -/
theorem Program.executeMethod_unregistered (env : Env) (inputs : ComputeInputs)
    (hc : inputs.op ≠ "create") (hu : inputs.op ≠ "update")
    (hp : inputs.op ∉ objectPrototypeKeys) :
    Program.executeMethod env inputs =
      ⟨[], .error (.error ("Unknown method: " ++ inputs.op))⟩ := by
  unfold Program.executeMethod executeMethodOf MethodTable.get
  dsimp only
  rw [Program.methodStrategies_lookup]
  simp [hc, hu, hp, Exec.throw]

/-- C1, evaluated where the code departs from it: the operation name "toString" is not
registered in the method table of `Program`, yet `executeMethod` does not throw the
unknown-method error. The lookup finds the function inherited from `Object.prototype`, calls
it and returns its result, the string "[object Undefined]". -/
theorem Program.executeMethod_inherited_name (env : Env) :
    "toString" ∉ (Program.methodStrategies env).map Prod.fst ∧
      Program.executeMethod env (sampleCall "toString" .undefined "") =
        ⟨[.builtin "toString"], .ok (.string "[object Undefined]")⟩ := by
  refine ⟨?_, rfl⟩
  show "toString" ∉ ["create", "update"]
  decide

/-- C2: when `op` is a registered operation name of `Program`, that is `create` or `update`,
`executeMethod` calls the handler registered under that name on the same inputs and returns
exactly its outcome: the handler's result when it returns, the handler's error when it
throws. The only call it adds to those of the handler is the call of the handler itself. -/
theorem Program.executeMethod_registered (env : Env) (inputs : ComputeInputs)
    (h : inputs.op = "create" ∨ inputs.op = "update") :
    (Program.executeMethod env inputs).result =
        ((if inputs.op = "create" then Program.create env inputs
          else Program.update env inputs).result).map Returned.outputs ∧
      (Program.executeMethod env inputs).trace =
        .handler inputs.op ::
          (if inputs.op = "create" then Program.create env inputs
            else Program.update env inputs).trace := by
  unfold Program.executeMethod executeMethodOf MethodTable.get
  dsimp only
  rw [Program.methodStrategies_lookup]
  rcases h with h | h
  · simp only [h, if_true, Strategy.call, Exec.handler]
    exact ⟨Exec.bind_pure_result _ _, by rw [Exec.bind_pure_trace]⟩
  · have hne : ("update" : String) ≠ "create" := by decide
    simp only [h, hne, if_false, if_true, Strategy.call, Exec.handler]
    exact ⟨Exec.bind_pure_result _ _, by rw [Exec.bind_pure_trace]⟩

/-- The dispatch theorem at the operation `update` of a sample call. -/
theorem Program.executeMethod_registered_witness :
    (Program.executeMethod sampleEnv
        (sampleCall "update" .undefined "\x7b\"metadata\":\x7b\"site\":\"x\"\x7d\x7d")).result =
      (Program.update sampleEnv
        (sampleCall "update" .undefined
          "\x7b\"metadata\":\x7b\"site\":\"x\"\x7d\x7d")).result.map Returned.outputs :=
  (Program.executeMethod_registered sampleEnv
    (sampleCall "update" .undefined "\x7b\"metadata\":\x7b\"site\":\"x\"\x7d\x7d")
    (Or.inr rfl)).1

/-- C3: `start` is `executeMethod` on the same inputs: the same calls, the same result, the
same failure. -/
theorem Program.start_eq_executeMethod (env : Env) (computeInputs : ComputeInputs) :
    Program.start env computeInputs = Program.executeMethod env computeInputs :=
  rfl

/-! ### `Program.create`: the two guards -/

/-- When `formatVerse` returns a falsy value for the total or for the initialized supply of
the payload, `create` throws the invalid-supply error and has called no builder helper. -/
theorem Program.create_invalid_supply_of_falsy (env : Env) (inputs : ComputeInputs)
    (payload total init : JsValue)
    (hp : env.jsonParse inputs.transaction.transactionInputs = .ok payload)
    (ht : env.formatVerse (payload.optionalGet "totalSupply") = .ok total)
    (hi : env.formatVerse (payload.optionalGet "initializedSupply") = .ok init)
    (hf : total.truthy = false ∨ init.truthy = false) :
    Program.create env inputs =
      ⟨[], .error (.error "Invalid totalSupply or initializedSupply")⟩ := by
  unfold Program.create
  simp only [hp, ht, hi, Exec.bind_eval_ok]
  rcases hf with hf | hf <;> simp [hf, Exec.throw]

/-- C5: when the payload parses and both supplies pass the supply guard (`formatVerse` returns
a truthy value for each), but the payload lacks `symbol` or lacks `name` (the member is
`undefined`, or any other falsy value), `create` throws the error "Invalid symbol or name",
its call trace is empty (no builder helper was called) and it returns no instruction list. -/
theorem Program.create_invalid_metadata (env : Env) (inputs : ComputeInputs)
    (payload total init : JsValue)
    (hp : env.jsonParse inputs.transaction.transactionInputs = .ok payload)
    (ht : env.formatVerse (payload.optionalGet "totalSupply") = .ok total)
    (hi : env.formatVerse (payload.optionalGet "initializedSupply") = .ok init)
    (htt : total.truthy = true) (hit : init.truthy = true)
    (hm : (payload.optionalGet "symbol").truthy = false ∨
      (payload.optionalGet "name").truthy = false) :
    Program.create env inputs = ⟨[], .error (.error "Invalid symbol or name")⟩ := by
  unfold Program.create
  simp only [hp, ht, hi, Exec.bind_eval_ok]
  rcases hm with hm | hm <;> simp [htt, hit, hm, Exec.throw]

/-- The metadata guard on a payload with both supplies and a name but no symbol. -/
theorem Program.create_invalid_metadata_witness :
    Program.create sampleEnv (sampleCall "create" .undefined
      "\x7b\"totalSupply\":\"100\",\"initializedSupply\":\"50\",\"name\":\"Token\"\x7d") =
      ⟨[], .error (.error "Invalid symbol or name")⟩ :=
  Program.create_invalid_metadata sampleEnv _
    (.obj [("totalSupply", .str "100"), ("initializedSupply", .str "50"),
      ("name", .str "Token")])
    (.str "0x64") (.str "0x32") rfl rfl rfl (by decide) (by decide) (Or.inl rfl)

/-! ### `SnakeProgram.mint` -/

/-- C6 fails for a negative odd value: on the attached value -7, `mint` hands
`buildMintInstructions` the returned value -3, which is not the floor of -7/2 (that is -4). -/
theorem SnakeProgram.mint_negative_odd :
    (SnakeProgram.mint sampleEnv (sampleCall "mint" (.str "-7") "")).trace =
        [.builder (.buildMintInstructions
          ⟨"0xA", "0xP", "0x0000000000000000000000000000000000000000", -7, -3⟩)] ∧
      (-3 : Int) ≠ ⌊((-7 : Int) : ℚ) / 2⌋ := by
  refine ⟨rfl, ?_⟩
  rw [floor_half]
  decide

/-- C6, amended: for every attached value that converts to the integer `v`, `mint` makes
exactly one builder call, `buildMintInstructions` with payment value `v` and returned value
the quotient of `v` by 2 truncated toward zero, and returns that builder's instructions; for
`v ≥ 0` the truncated quotient is the floor of `v / 2`. -/
theorem SnakeProgram.mint_truncates (env : Env) (inputs : ComputeInputs) (v : Int)
    (hv : env.toBigInt inputs.transaction.value = .ok v) :
    (SnakeProgram.mint env inputs).trace =
        [.builder (.buildMintInstructions
          ⟨inputs.transaction.from_, inputs.transaction.programId, env.ETH_PROGRAM_ADDRESS, v,
            Int.tdiv v 2⟩)] ∧
      (SnakeProgram.mint env inputs).result =
        (env.buildMintInstructions
          ⟨inputs.transaction.from_, inputs.transaction.programId, env.ETH_PROGRAM_ADDRESS, v,
            Int.tdiv v 2⟩).map (fun instructions => ⟨inputs, instructions⟩) ∧
      (0 ≤ v → Int.tdiv v 2 = ⌊(v : ℚ) / 2⌋) := by
  refine ⟨?_, ?_, ?_⟩
  · unfold SnakeProgram.mint
    simp only [hv, Exec.bind_eval_ok]
    exact Exec.bind_pure_trace _ _
  · unfold SnakeProgram.mint
    simp only [hv, Exec.bind_eval_ok]
    exact Exec.bind_pure_result _ _
  · intro h
    rw [floor_half, Int.tdiv_eq_ediv h (by decide)]

/-- The value 100: the builder receives payment 100 and returned value 50, the floor of
100/2. -/
theorem SnakeProgram.mint_truncates_witness :
    (SnakeProgram.mint sampleEnv (sampleCall "mint" (.str "100") "")).trace =
        [.builder (.buildMintInstructions
          ⟨"0xA", "0xP", "0x0000000000000000000000000000000000000000", 100, 50⟩)] ∧
      (50 : Int) = ⌊((100 : Int) : ℚ) / 2⌋ :=
  ⟨(SnakeProgram.mint_truncates sampleEnv (sampleCall "mint" (.str "100") "") 100 rfl).1,
    (SnakeProgram.mint_truncates sampleEnv (sampleCall "mint" (.str "100") "") 100 rfl).2.2
      (by decide)⟩

/-! ### `FungibleTokenContract` -/

/-- C7 fails on a fractional value: on the attached value "1.5", a decimal amount, `mint`
throws the SyntaxError of `BigInt`, whatever the helpers of the environment do, and returns
no instruction. -/
theorem FungibleTokenContract.mint_fractional_value :
    FungibleTokenContract.mint sampleEnv (sampleCall "mint" (.str "1.5") "") =
        .error .syntaxError ∧
      ∀ env : Env,
        FungibleTokenContract.mint env (sampleCall "mint" (.str "1.5") "") =
          .error .syntaxError :=
  ⟨rfl, fun _ => rfl⟩

/-- C7, amended: when the attached value (0 when absent) converts with `BigInt` to the integer
`v` and the hex encodings succeed, `mint` returns exactly two Transfer instructions in this
order: the proceeds, from the program ("this") to the caller in the token `transaction.to`,
with amount the hex encoding of the quotient of `v` by the rate 1; then the payment, from the
caller to the program in the token `transaction.programId`, with amount the hex encoding of
`v`. -/
theorem FungibleTokenContract.mint_two_transfers (env : Env) (inputs : ComputeInputs)
    (v : Int) (proceeds payment : String)
    (hv : env.toBigInt (inputs.transaction.value.nullish (.number 0)) = .ok v)
    (hq : env.bigIntToHexString (Int.tdiv v 1) = .ok proceeds)
    (hp : env.bigIntToHexString v = .ok payment) :
    FungibleTokenContract.mint env inputs =
      .ok ⟨inputs,
        [.transfer ⟨.this, .address ⟨inputs.transaction.from_⟩, proceeds,
            ⟨inputs.transaction.to_⟩⟩,
         .transfer ⟨.address ⟨inputs.transaction.from_⟩, .this, payment,
            ⟨inputs.transaction.programId⟩⟩]⟩ := by
  unfold FungibleTokenContract.mint
  simp only [hv, hq, hp, bind, Except.bind]
  rfl

/-- A mint with attached value 100, where both transfers carry "0x64", and a mint without an
attached value, where both carry the encoding of 0. -/
theorem FungibleTokenContract.mint_two_transfers_witness :
    FungibleTokenContract.mint sampleEnv (sampleCall "mint" (.str "100") "") =
        .ok ⟨sampleCall "mint" (.str "100") "",
          [.transfer ⟨.this, .address ⟨"0xA"⟩, "0x64", ⟨"0xT"⟩⟩,
           .transfer ⟨.address ⟨"0xA"⟩, .this, "0x64", ⟨"0xP"⟩⟩]⟩ ∧
      FungibleTokenContract.mint sampleEnv (sampleCall "mint" .undefined "") =
        .ok ⟨sampleCall "mint" .undefined "",
          [.transfer ⟨.this, .address ⟨"0xA"⟩, "0x0", ⟨"0xT"⟩⟩,
           .transfer ⟨.address ⟨"0xA"⟩, .this, "0x0", ⟨"0xP"⟩⟩]⟩ :=
  ⟨FungibleTokenContract.mint_two_transfers sampleEnv (sampleCall "mint" (.str "100") "")
      100 "0x64" "0x64" rfl rfl rfl,
    FungibleTokenContract.mint_two_transfers sampleEnv (sampleCall "mint" .undefined "")
      0 "0x0" "0x0" rfl rfl rfl⟩

/-- C8: when `transaction.inputs` is valid JSON, parsed to `grant`, `approve` returns an
Outputs with exactly one instruction, an update that carries one `tokenUpdate` whose token is
`transaction.programId`, whose caller is `transaction.from` and whose single field update
names the field `approvals` with action `extend` and a payload holding exactly `grant`. -/
theorem FungibleTokenContract.approve_one_update (env : Env) (inputs : ComputeInputs)
    (grant : JsValue)
    (hg : env.jsonParse inputs.transaction.inputs = .ok grant) :
    FungibleTokenContract.approve env inputs =
      .ok ⟨inputs,
        [.update ⟨[.tokenUpdate
          ⟨.address ⟨inputs.transaction.from_⟩, .address ⟨inputs.transaction.programId⟩,
            [⟨⟨"approvals"⟩, ⟨"extend", .approvals ⟨⟨[grant]⟩⟩⟩⟩]⟩]⟩]⟩ := by
  unfold FungibleTokenContract.approve
  simp only [hg, bind, Except.bind]
  rfl

/-- The approve call from "0xA" on the token "0xP" with the grant of 50 to "0xB". -/
theorem FungibleTokenContract.approve_one_update_witness :
    FungibleTokenContract.approve sampleEnv
        (sampleCall "approve" .undefined "\x7b\"address\":\"0xB\",\"amount\":\"50\"\x7d") =
      .ok ⟨sampleCall "approve" .undefined "\x7b\"address\":\"0xB\",\"amount\":\"50\"\x7d",
        [.update ⟨[.tokenUpdate
          ⟨.address ⟨"0xA"⟩, .address ⟨"0xP"⟩,
            [⟨⟨"approvals"⟩, ⟨"extend", .approvals
              ⟨⟨[.obj [("address", .str "0xB"), ("amount", .str "50")]]⟩⟩⟩⟩]⟩]⟩]⟩ :=
  FungibleTokenContract.approve_one_update sampleEnv
    (sampleCall "approve" .undefined "\x7b\"address\":\"0xB\",\"amount\":\"50\"\x7d")
    (.obj [("address", .str "0xB"), ("amount", .str "50")]) rfl

/-- C9: whenever `createAndDistribute` returns, the payload parsed, the attached value (0 when
absent) converted to an integer `v` with hex encoding `amount`, and the result is exactly one
create instruction that embeds exactly one distribution, whose receiver is the caller
`transaction.from`, whose amount is `amount`, and which carries exactly one field update, on
`metadata`, built from the parsed payload. -/
theorem FungibleTokenContract.createAndDistribute_one_create (env : Env)
    (inputs : ComputeInputs) (out : Outputs)
    (h : FungibleTokenContract.createAndDistribute env inputs = .ok out) :
    ∃ (payload : JsValue) (v : Int) (amount total : String),
      env.jsonParse inputs.transaction.inputs = .ok payload ∧
      env.toBigInt (inputs.transaction.value.nullish (.number 0)) = .ok v ∧
      env.bigIntToHexString v = .ok amount ∧
      out = ⟨inputs,
        [.create ⟨.this, total, amount, ⟨inputs.transaction.from_⟩, .this,
          [⟨.this, amount, .address ⟨inputs.transaction.from_⟩,
            [⟨⟨"metadata"⟩, ⟨"metadata", .metadata ⟨payload⟩⟩⟩]⟩]⟩]⟩ := by
  unfold FungibleTokenContract.createAndDistribute at h
  cases hp : env.jsonParse inputs.transaction.inputs with
  | error e => simp [hp, bind, Except.bind] at h
  | ok payload =>
    cases hv : env.toBigInt (inputs.transaction.value.nullish (.number 0)) with
    | error e => simp [hp, hv, bind, Except.bind] at h
    | ok v =>
      cases ha : env.bigIntToHexString v with
      | error e => simp [hp, hv, ha, bind, Except.bind] at h
      | ok amount =>
        cases ht : env.toBigInt ((payload.optionalGet "totalSupply").nullish (.number 0)) with
        | error e =>
          simp [hp, hv, ha, ht, bind, Except.bind, TokenDistributionBuilder.build,
            TokenDistributionBuilder.new, TokenDistributionBuilder.setProgramId,
            TokenDistributionBuilder.setAmount, TokenDistributionBuilder.setReceiver,
            TokenDistributionBuilder.extendUpdateFields] at h
        | ok t =>
          cases hh : env.bigIntToHexString t with
          | error e =>
            simp [hp, hv, ha, ht, hh, bind, Except.bind, TokenDistributionBuilder.build,
              TokenDistributionBuilder.new, TokenDistributionBuilder.setProgramId,
              TokenDistributionBuilder.setAmount, TokenDistributionBuilder.setReceiver,
              TokenDistributionBuilder.extendUpdateFields] at h
          | ok total =>
            refine ⟨payload, v, amount, total, rfl, rfl, ha, ?_⟩
            simp only [hp, hv, ha, ht, hh, bind, Except.bind] at h
            exact (Except.ok.inj h).symm

/-- A call with attached value 100 and a payload naming a total supply of 1000 succeeds, and
the theorem applies to its result: one create instruction with one distribution of "0x64" to
the caller "0xA". -/
theorem FungibleTokenContract.createAndDistribute_one_create_witness :
    ∃ (payload : JsValue) (v : Int) (amount total : String),
      JSON.parse "\x7b\"symbol\":\"TKN\",\"totalSupply\":\"1000\"\x7d" = .ok payload ∧
      sampleEnv.toBigInt ((JsValue.str "100").nullish (.number 0)) = .ok v ∧
      bigIntToHexString v = .ok amount ∧
      (⟨sampleCall "createAndDistribute" (.str "100")
          "\x7b\"symbol\":\"TKN\",\"totalSupply\":\"1000\"\x7d",
        [.create ⟨.this, "0x3e8", "0x64", ⟨"0xA"⟩, .this,
          [⟨.this, "0x64", .address ⟨"0xA"⟩,
            [⟨⟨"metadata"⟩, ⟨"metadata", .metadata
              ⟨.obj [("symbol", .str "TKN"), ("totalSupply", .str "1000")]⟩⟩⟩]⟩]⟩]⟩ : Outputs) =
        ⟨sampleCall "createAndDistribute" (.str "100")
          "\x7b\"symbol\":\"TKN\",\"totalSupply\":\"1000\"\x7d",
        [.create ⟨.this, total, amount, ⟨"0xA"⟩, .this,
          [⟨.this, amount, .address ⟨"0xA"⟩,
            [⟨⟨"metadata"⟩, ⟨"metadata", .metadata ⟨payload⟩⟩⟩]⟩]⟩]⟩ :=
  FungibleTokenContract.createAndDistribute_one_create sampleEnv
    (sampleCall "createAndDistribute" (.str "100")
      "\x7b\"symbol\":\"TKN\",\"totalSupply\":\"1000\"\x7d") _ rfl

/-- C10 fails on a fractional value: on the attached value "1.5", a decimal amount, `burn`
throws the SyntaxError of `BigInt`, whatever the helpers of the environment do, and returns
no instruction. -/
theorem FungibleTokenContract.burn_fractional_value :
    FungibleTokenContract.burn sampleEnv (sampleCall "burn" (.str "1.5") "") =
        .error .syntaxError ∧
      ∀ env : Env,
        FungibleTokenContract.burn env (sampleCall "burn" (.str "1.5") "") =
          .error .syntaxError :=
  ⟨rfl, fun _ => rfl⟩

/-- C10, amended: when the attached value (0 when absent) converts with `BigInt` to the
integer `v` with hex encoding `amount`, `burn` returns exactly one Burn instruction whose
caller and burnFromAddress are `transaction.from`, whose programId and tokenAddress are the
self-reference "this", and whose amount is `amount`. -/
theorem FungibleTokenContract.burn_one_burn (env : Env) (inputs : ComputeInputs)
    (v : Int) (amount : String)
    (hv : env.toBigInt (inputs.transaction.value.nullish (.number 0)) = .ok v)
    (ha : env.bigIntToHexString v = .ok amount) :
    FungibleTokenContract.burn env inputs =
      .ok ⟨inputs,
        [.burn ⟨.this, ⟨inputs.transaction.from_⟩, ⟨"this"⟩,
          .address ⟨inputs.transaction.from_⟩, amount⟩]⟩ := by
  unfold FungibleTokenContract.burn
  simp only [hv, ha, bind, Except.bind]
  rfl

/-- A burn without an attached value: the amount is the encoding of 0. -/
theorem FungibleTokenContract.burn_one_burn_witness :
    FungibleTokenContract.burn sampleEnv (sampleCall "burn" .undefined "") =
      .ok ⟨sampleCall "burn" .undefined "",
        [.burn ⟨.this, ⟨"0xA"⟩, ⟨"this"⟩, .address ⟨"0xA"⟩, "0x0"⟩]⟩ :=
  FungibleTokenContract.burn_one_burn sampleEnv (sampleCall "burn" .undefined "")
    0 "0x0" rfl rfl

/-! ### `Program.update` -/

/-- Coalescing with `undefined` does not change truthiness. -/
theorem JsValue.truthy_nullish_undefined (x : JsValue) :
    (x.nullish .undefined).truthy = x.truthy := by
  cases x <;> rfl

/-- A truthy value is not nullish. -/
theorem JsValue.nullish_undefined_of_truthy (x : JsValue) (h : x.truthy = true) :
    x.nullish .undefined = x := by
  cases x <;> first | rfl | simp [JsValue.truthy] at h

/-- The outcome of a sequence is the sequence of the outcomes. -/
theorem Exec.result_bind {α β : Type} (m : Exec α) (f : α → Exec β) :
    (m >>= f).result = m.result >>= fun a => (f a).result := by
  show (Exec.bind _ _).result = _
  unfold Exec.bind
  cases h : m.result <;> rfl

/-- Returning a value yields it. -/
theorem Exec.result_pure {α : Type} (a : α) : (Pure.pure a : Exec α).result = .ok a := rfl

/-- Every successful run of `update` parsed the payload, built one field update for each of
`metadata` and `data` that is truthy (from its JSON text, with action `extend`), handed
`buildUpdateInstruction` the program update for "this" with these field updates, metadata
first, and returned the one instruction that came back. -/
theorem Program.update_result_cases (env : Env) (inputs : ComputeInputs) (out : Outputs)
    (h : (Program.update env inputs).result = .ok out) :
    ∃ (payload : JsValue) (fromMetadata fromData : List ProgramUpdateField)
        (instruction : Instruction),
      env.jsonParse inputs.transaction.transactionInputs = .ok payload ∧
      ((payload.optionalGet "metadata").truthy = true →
          ∃ text entry, env.jsonStringify (payload.optionalGet "metadata") = .ok text ∧
            env.buildProgramUpdateField ⟨"metadata", text, "extend"⟩ = .ok entry ∧
            fromMetadata = [entry]) ∧
      ((payload.optionalGet "metadata").truthy = false → fromMetadata = []) ∧
      ((payload.optionalGet "data").truthy = true →
          ∃ text entry, env.jsonStringify (payload.optionalGet "data") = .ok text ∧
            env.buildProgramUpdateField ⟨"data", text, "extend"⟩ = .ok entry ∧
            fromData = [entry]) ∧
      ((payload.optionalGet "data").truthy = false → fromData = []) ∧
      env.buildUpdateInstruction (.programUpdate ⟨.this, fromMetadata ++ fromData⟩) =
        .ok instruction ∧
      out = ⟨inputs, [instruction]⟩ := by
  unfold Program.update at h
  cases hp : env.jsonParse inputs.transaction.transactionInputs with
  | error e => simp [hp, Exec.bind_eval_error, Exec.throw] at h
  | ok payload =>
    simp only [hp, Exec.bind_eval_ok, JsValue.truthy_nullish_undefined] at h
    refine ⟨payload, ?_⟩
    cases hm : (payload.optionalGet "metadata").truthy <;>
    cases hd : (payload.optionalGet "data").truthy
    · simp only [hm, hd, if_true, if_false, Bool.false_eq_true,
        JsValue.nullish_undefined_of_truthy, Exec.result_bind, Exec.result_pure, Exec.eval,
        Exec.buildProgramUpdateField, Exec.buildUpdateInstruction, List.nil_append,
        List.singleton_append] at h
      cases h5 : env.buildUpdateInstruction (.programUpdate ⟨.this, []⟩) with
      | error e => simp [h5, bind, Except.bind] at h
      | ok i =>
        simp [h5, bind, Except.bind] at h
        exact ⟨[], [], i, rfl, fun ht => Bool.noConfusion ht, fun _ => rfl,
          fun ht => Bool.noConfusion ht, fun _ => rfl, h5, h.symm⟩
    · simp only [hm, hd, if_true, if_false, Bool.false_eq_true,
        JsValue.nullish_undefined_of_truthy, Exec.result_bind, Exec.result_pure, Exec.eval,
        Exec.buildProgramUpdateField, Exec.buildUpdateInstruction, List.nil_append,
        List.singleton_append] at h
      cases h3 : env.jsonStringify (payload.optionalGet "data") with
      | error e => simp [h3, bind, Except.bind] at h
      | ok t2 =>
        cases h4 : env.buildProgramUpdateField ⟨"data", t2, "extend"⟩ with
        | error e => simp [h3, h4, bind, Except.bind] at h
        | ok f2 =>
          cases h5 : env.buildUpdateInstruction (.programUpdate ⟨.this, [f2]⟩) with
          | error e => simp [h3, h4, h5, bind, Except.bind] at h
          | ok i =>
            simp [h3, h4, h5, bind, Except.bind] at h
            exact ⟨[], [f2], i, rfl, fun ht => Bool.noConfusion ht, fun _ => rfl,
              fun _ => ⟨t2, f2, rfl, h4, rfl⟩, fun ht => Bool.noConfusion ht, h5, h.symm⟩
    · simp only [hm, hd, if_true, if_false, Bool.false_eq_true,
        JsValue.nullish_undefined_of_truthy, Exec.result_bind, Exec.result_pure, Exec.eval,
        Exec.buildProgramUpdateField, Exec.buildUpdateInstruction, List.nil_append,
        List.singleton_append] at h
      cases h1 : env.jsonStringify (payload.optionalGet "metadata") with
      | error e => simp [h1, bind, Except.bind] at h
      | ok t1 =>
        cases h2 : env.buildProgramUpdateField ⟨"metadata", t1, "extend"⟩ with
        | error e => simp [h1, h2, bind, Except.bind] at h
        | ok f1 =>
          cases h5 : env.buildUpdateInstruction (.programUpdate ⟨.this, [f1]⟩) with
          | error e => simp [h1, h2, h5, bind, Except.bind] at h
          | ok i =>
            simp [h1, h2, h5, bind, Except.bind] at h
            exact ⟨[f1], [], i, rfl, fun _ => ⟨t1, f1, rfl, h2, rfl⟩,
              fun ht => Bool.noConfusion ht, fun ht => Bool.noConfusion ht,
              fun _ => rfl, h5, h.symm⟩
    · simp only [hm, hd, if_true, if_false, Bool.false_eq_true,
        JsValue.nullish_undefined_of_truthy, Exec.result_bind, Exec.result_pure, Exec.eval,
        Exec.buildProgramUpdateField, Exec.buildUpdateInstruction, List.nil_append,
        List.singleton_append] at h
      cases h1 : env.jsonStringify (payload.optionalGet "metadata") with
      | error e => simp [h1, bind, Except.bind] at h
      | ok t1 =>
        cases h2 : env.buildProgramUpdateField ⟨"metadata", t1, "extend"⟩ with
        | error e => simp [h1, h2, bind, Except.bind] at h
        | ok f1 =>
          cases h3 : env.jsonStringify (payload.optionalGet "data") with
          | error e => simp [h1, h2, h3, bind, Except.bind] at h
          | ok t2 =>
            cases h4 : env.buildProgramUpdateField ⟨"data", t2, "extend"⟩ with
            | error e => simp [h1, h2, h3, h4, bind, Except.bind] at h
            | ok f2 =>
              cases h5 : env.buildUpdateInstruction (.programUpdate ⟨.this, [f1, f2]⟩) with
              | error e => simp [h1, h2, h3, h4, h5, bind, Except.bind] at h
              | ok i =>
                simp [h1, h2, h3, h4, h5, bind, Except.bind] at h
                exact ⟨[f1], [f2], i, rfl, fun _ => ⟨t1, f1, rfl, h2, rfl⟩,
                  fun ht => Bool.noConfusion ht, fun _ => ⟨t2, f2, rfl, h4, rfl⟩,
                  fun ht => Bool.noConfusion ht, h5, h.symm⟩


/-- C11 fails on the empty payload: `update` returns a list that holds one update instruction
(with an empty field list), and for no environment is the list it returns empty. -/
theorem Program.update_empty_payload_emits :
    Program.update sampleEnv (sampleCall "update" .undefined "\x7b\x7d") =
        ⟨[.builder (.buildUpdateInstruction (.programUpdate ⟨.this, []⟩))],
          .ok ⟨sampleCall "update" .undefined "\x7b\x7d",
            [.update ⟨[.programUpdate ⟨.this, []⟩]⟩]⟩⟩ ∧
      ∀ (env : Env) (out : Outputs),
        (Program.update env (sampleCall "update" .undefined "\x7b\x7d")).result = .ok out →
          out.instructions ≠ [] := by
  refine ⟨rfl, ?_⟩
  intro env out h
  obtain ⟨_, _, _, instruction, _, _, _, _, _, _, hout⟩ :=
    Program.update_result_cases env _ out h
  rw [hout]
  exact List.cons_ne_nil _ _

/-- C11, amended: when the parsed payload has neither `data` nor `metadata`, `update` calls no
field builder; its only call is `buildUpdateInstruction` on the program update for "this" with
an empty field list, and it returns exactly the one instruction that call returns (failing
only if that call fails). -/
theorem Program.update_without_payloads (env : Env) (inputs : ComputeInputs)
    (payload : JsValue)
    (hp : env.jsonParse inputs.transaction.transactionInputs = .ok payload)
    (hd : payload.optionalGet "data" = .undefined)
    (hm : payload.optionalGet "metadata" = .undefined) :
    (Program.update env inputs).trace =
        [.builder (.buildUpdateInstruction (.programUpdate ⟨.this, []⟩))] ∧
      (Program.update env inputs).result =
        (env.buildUpdateInstruction (.programUpdate ⟨.this, []⟩)).map
          (fun instruction => ⟨inputs, [instruction]⟩) := by
  unfold Program.update
  simp only [hp, hd, hm, Exec.bind_eval_ok, JsValue.nullish, JsValue.truthy]
  simp
  exact ⟨Exec.bind_pure_trace _ _, Exec.bind_pure_result _ _⟩

/-- The empty payload: one call, of `buildUpdateInstruction` with no field update. -/
theorem Program.update_without_payloads_witness :
    (Program.update sampleEnv (sampleCall "update" .undefined "\x7b\x7d")).trace =
      [.builder (.buildUpdateInstruction (.programUpdate ⟨.this, []⟩))] :=
  (Program.update_without_payloads sampleEnv (sampleCall "update" .undefined "\x7b\x7d")
    (.obj []) rfl rfl rfl).1

/-- C15 fails on a payload whose `data` is present but falsy: with `data` equal to 0, `update`
succeeds and the field list of the program update is empty. -/
theorem Program.update_present_falsy_data :
    JSON.parse "\x7b\"data\":0\x7d" = .ok (.obj [("data", .number 0)]) ∧
      (JsValue.obj [("data", .number 0)]).optionalGet "data" = .number 0 ∧
      Program.update sampleEnv (sampleCall "update" .undefined "\x7b\"data\":0\x7d") =
        ⟨[.builder (.buildUpdateInstruction (.programUpdate ⟨.this, []⟩))],
          .ok ⟨sampleCall "update" .undefined "\x7b\"data\":0\x7d",
            [.update ⟨[.programUpdate ⟨.this, []⟩]⟩]⟩⟩ :=
  ⟨rfl, rfl, rfl⟩

/-- C15, amended: whenever `update` succeeds, the program update it hands to
`buildUpdateInstruction` targets "this", and its ordered field list is the `metadata` entry
(present exactly when the payload member `metadata` is truthy) followed by the `data` entry
(present exactly when the payload member `data` is truthy), each built by
`buildProgramUpdateField` with action `extend` from the JSON text of the member, and nothing
else; the result is the one instruction built from it. -/
theorem Program.update_fields_follow_truthiness (env : Env) (inputs : ComputeInputs)
    (out : Outputs) (h : (Program.update env inputs).result = .ok out) :
    ∃ (payload : JsValue) (fromMetadata fromData : List ProgramUpdateField)
        (instruction : Instruction),
      env.jsonParse inputs.transaction.transactionInputs = .ok payload ∧
      ((payload.optionalGet "metadata").truthy = true →
          ∃ text entry, env.jsonStringify (payload.optionalGet "metadata") = .ok text ∧
            env.buildProgramUpdateField ⟨"metadata", text, "extend"⟩ = .ok entry ∧
            fromMetadata = [entry]) ∧
      ((payload.optionalGet "metadata").truthy = false → fromMetadata = []) ∧
      ((payload.optionalGet "data").truthy = true →
          ∃ text entry, env.jsonStringify (payload.optionalGet "data") = .ok text ∧
            env.buildProgramUpdateField ⟨"data", text, "extend"⟩ = .ok entry ∧
            fromData = [entry]) ∧
      ((payload.optionalGet "data").truthy = false → fromData = []) ∧
      env.buildUpdateInstruction (.programUpdate ⟨.this, fromMetadata ++ fromData⟩) =
        .ok instruction ∧
      out = ⟨inputs, [instruction]⟩ :=
  Program.update_result_cases env inputs out h

/-- A payload with both members: the metadata entry comes first, the data entry second. -/
theorem Program.update_fields_follow_truthiness_witness :
    ∃ (payload : JsValue) (fromMetadata fromData : List ProgramUpdateField)
        (instruction : Instruction),
      JSON.parse "\x7b\"metadata\":\x7b\"site\":\"x\"\x7d,\"data\":\x7b\"k\":\"v\"\x7d\x7d" =
        .ok payload ∧
      ((payload.optionalGet "metadata").truthy = true →
          ∃ text entry, JSON.stringify (payload.optionalGet "metadata") = .ok text ∧
            sampleEnv.buildProgramUpdateField ⟨"metadata", text, "extend"⟩ = .ok entry ∧
            fromMetadata = [entry]) ∧
      ((payload.optionalGet "metadata").truthy = false → fromMetadata = []) ∧
      ((payload.optionalGet "data").truthy = true →
          ∃ text entry, JSON.stringify (payload.optionalGet "data") = .ok text ∧
            sampleEnv.buildProgramUpdateField ⟨"data", text, "extend"⟩ = .ok entry ∧
            fromData = [entry]) ∧
      ((payload.optionalGet "data").truthy = false → fromData = []) ∧
      sampleEnv.buildUpdateInstruction (.programUpdate ⟨.this, fromMetadata ++ fromData⟩) =
        .ok instruction ∧
      (⟨sampleCall "update" .undefined
          "\x7b\"metadata\":\x7b\"site\":\"x\"\x7d,\"data\":\x7b\"k\":\"v\"\x7d\x7d",
        [.update ⟨[.programUpdate ⟨.this,
          [⟨"metadata", "extend", .str "\x7b\"site\":\"x\"\x7d"⟩,
           ⟨"data", "extend", .str "\x7b\"k\":\"v\"\x7d"⟩]⟩]⟩]⟩ : Outputs) =
        ⟨sampleCall "update" .undefined
          "\x7b\"metadata\":\x7b\"site\":\"x\"\x7d,\"data\":\x7b\"k\":\"v\"\x7d\x7d",
          [instruction]⟩ :=
  Program.update_fields_follow_truthiness sampleEnv
    (sampleCall "update" .undefined
      "\x7b\"metadata\":\x7b\"site\":\"x\"\x7d,\"data\":\x7b\"k\":\"v\"\x7d\x7d") _ rfl

/-! ### `Program.create`: the successful path -/

/-- Sequencing after an execution that returned. -/
theorem Exec.bind_mk_ok {α β : Type} (t : List Event) (a : α) (f : α → Exec β) :
    ((⟨t, .ok a⟩ : Exec α) >>= f) = ⟨t ++ (f a).trace, (f a).result⟩ := rfl

/-- C14: when the payload parses, both supplies pass the supply guard, `symbol` and `name` are
truthy and the JSON printer and the five builder helpers return, `create` calls the helpers in
this order and with these arguments: the token field update and the program field update for
`metadata`/`extend` with the JSON text of the record of symbol, name and totalSupply; the update
instruction for the program update on "this"; the distribution for program "this" of the
initialized supply to the receiver, with the token field update; the create instruction with
programId and programNamespace "this", programOwner the caller, and that distribution. It
returns exactly the create instruction followed by the update instruction. The receiver is the
payload member `to` unless that is `undefined` or `null`, and the caller otherwise. -/
theorem Program.create_two_instructions (env : Env) (inputs : ComputeInputs)
    (payload total init : JsValue) (text : String) (tokenField : TokenUpdateField)
    (programField : ProgramUpdateField) (distribution : TokenDistribution)
    (createInstruction updateInstruction : Instruction)
    (hp : env.jsonParse inputs.transaction.transactionInputs = .ok payload)
    (ht : env.formatVerse (payload.optionalGet "totalSupply") = .ok total)
    (hi : env.formatVerse (payload.optionalGet "initializedSupply") = .ok init)
    (htt : total.truthy = true) (hit : init.truthy = true)
    (hs : (payload.optionalGet "symbol").truthy = true)
    (hn : (payload.optionalGet "name").truthy = true)
    (hx : env.jsonStringify (.obj [("symbol", payload.optionalGet "symbol"),
      ("name", payload.optionalGet "name"), ("totalSupply", total)]) = .ok text)
    (h1 : env.buildTokenUpdateField ⟨"metadata", text, "extend"⟩ = .ok tokenField)
    (h2 : env.buildProgramUpdateField ⟨"metadata", text, "extend"⟩ = .ok programField)
    (h3 : env.buildUpdateInstruction (.programUpdate ⟨.this, [programField]⟩) =
      .ok updateInstruction)
    (h4 : env.buildTokenDistributionInstruction
      ⟨THIS, init, (payload.optionalGet "to").nullish (.str inputs.transaction.from_),
        [tokenField]⟩ = .ok distribution)
    (h5 : env.buildCreateInstruction
      ⟨inputs.transaction.from_, init, total, THIS, inputs.transaction.from_, THIS,
        distribution⟩ = .ok createInstruction) :
    Program.create env inputs =
        ⟨[.builder (.buildTokenUpdateField ⟨"metadata", text, "extend"⟩),
          .builder (.buildProgramUpdateField ⟨"metadata", text, "extend"⟩),
          .builder (.buildUpdateInstruction (.programUpdate ⟨.this, [programField]⟩)),
          .builder (.buildTokenDistributionInstruction
            ⟨THIS, init, (payload.optionalGet "to").nullish (.str inputs.transaction.from_),
              [tokenField]⟩),
          .builder (.buildCreateInstruction
            ⟨inputs.transaction.from_, init, total, THIS, inputs.transaction.from_, THIS,
              distribution⟩)],
         .ok ⟨inputs, [createInstruction, updateInstruction]⟩⟩ ∧
      THIS = "this" ∧
      (payload.optionalGet "to" = .undefined →
        (payload.optionalGet "to").nullish (.str inputs.transaction.from_) =
          .str inputs.transaction.from_) ∧
      (payload.optionalGet "to" ≠ .undefined → payload.optionalGet "to" ≠ .null →
        (payload.optionalGet "to").nullish (.str inputs.transaction.from_) =
          payload.optionalGet "to") := by
  refine ⟨?_, rfl, ?_, ?_⟩
  · unfold Program.create
    simp only [hp, ht, hi, Exec.bind_eval_ok, htt, hit, hs, hn, hx, Bool.not_true,
      Bool.or_self, Bool.false_eq_true, if_false, Exec.buildTokenUpdateField,
      Exec.buildProgramUpdateField, Exec.buildUpdateInstruction,
      Exec.buildTokenDistributionInstruction, Exec.buildCreateInstruction, h1, h2, h3, h4, h5,
      Exec.bind_mk_ok]
    rfl
  · intro h
    rw [h]
    rfl
  · intro h1 h2
    cases hto : payload.optionalGet "to" <;> first | rfl | exact absurd hto h1 | exact absurd hto h2


/-- A payload with both supplies, symbol and name and no `to`: the create instruction with its
distribution to the caller "0xA", then the update instruction. -/
theorem Program.create_two_instructions_witness :
    (Program.create sampleEnv (sampleCall "create" .undefined
      "\x7b\"totalSupply\":\"100\",\"initializedSupply\":\"50\",\"symbol\":\"TKN\",\"name\":\"Token\"\x7d")).result =
      .ok ⟨sampleCall "create" .undefined
        "\x7b\"totalSupply\":\"100\",\"initializedSupply\":\"50\",\"symbol\":\"TKN\",\"name\":\"Token\"\x7d",
        [.create ⟨.this, "0x64", "0x32", ⟨"0xA"⟩, .this,
          [⟨.this, "0x32", .address ⟨"0xA"⟩, [⟨⟨"metadata"⟩, ⟨"extend", .raw (.str
            "\x7b\"symbol\":\"TKN\",\"name\":\"Token\",\"totalSupply\":\"0x64\"\x7d")⟩⟩]⟩]⟩,
         .update ⟨[.programUpdate ⟨.this, [⟨"metadata", "extend", .str
            "\x7b\"symbol\":\"TKN\",\"name\":\"Token\",\"totalSupply\":\"0x64\"\x7d"⟩]⟩]⟩]⟩ :=
  congrArg Exec.result
    (Program.create_two_instructions sampleEnv
      (sampleCall "create" .undefined
        "\x7b\"totalSupply\":\"100\",\"initializedSupply\":\"50\",\"symbol\":\"TKN\",\"name\":\"Token\"\x7d")
      (.obj [("totalSupply", .str "100"), ("initializedSupply", .str "50"),
        ("symbol", .str "TKN"), ("name", .str "Token")])
      (.str "0x64") (.str "0x32")
      "\x7b\"symbol\":\"TKN\",\"name\":\"Token\",\"totalSupply\":\"0x64\"\x7d"
      _ _ _ _ _ rfl rfl rfl (by decide) (by decide) (by decide) (by decide) rfl rfl rfl rfl
      rfl rfl).1

/-! ### The decimal amount parser -/

/-- Reading digits from an accumulator shifts the accumulator by the number of digits. -/
theorem digitsToNat_foldl (ds : List Char) (a : Nat) :
    ds.foldl (fun acc c => acc * 10 + (c.toNat - 48)) a = a * 10 ^ ds.length + digitsToNat ds := by
  induction ds generalizing a with
  | nil => simp [digitsToNat]
  | cons c cs ih =>
    unfold digitsToNat
    simp only [List.foldl_cons, List.length_cons]
    rw [ih, ih (0 * 10 + (c.toNat - 48))]
    ring

/-- The value of two runs of digits written one after the other. -/
theorem digitsToNat_append (xs ys : List Char) :
    digitsToNat (xs ++ ys) = digitsToNat xs * 10 ^ ys.length + digitsToNat ys := by
  unfold digitsToNat
  rw [List.foldl_append, digitsToNat_foldl]
  rfl

/-- A run of zeros has value zero. -/
theorem digitsToNat_zeros (k : Nat) : digitsToNat (List.replicate k '0') = 0 := by
  induction k with
  | zero => rfl
  | succ n ih =>
    rw [List.replicate_succ]
    change digitsToNat (['0'] ++ List.replicate n '0') = 0
    have h0 : digitsToNat ['0'] = 0 := rfl
    rw [digitsToNat_append, ih, h0]
    simp

/-- The value of an integer part followed by a fraction padded with zeros to the precision. -/
theorem digitsToNat_padded (precision : Nat) (whole frac : List Char)
    (hlen : frac.length ≤ precision) :
    digitsToNat (whole ++ frac ++ List.replicate (precision - frac.length) '0') =
      digitsToNat whole * 10 ^ precision +
        digitsToNat frac * 10 ^ (precision - frac.length) := by
  rw [digitsToNat_append, digitsToNat_append, digitsToNat_zeros, List.length_replicate]
  have h : precision = frac.length + (precision - frac.length) := by omega
  conv_rhs => rw [h, pow_add]
  have h2 : frac.length + (precision - frac.length) - frac.length = precision - frac.length := by
    omega
  rw [h2]
  ring

/-- A digit is not the decimal point. -/
theorem not_point_of_isDigit (c : Char) (h : c.isDigit = true) : (c != '.') = true := by
  have hne : c ≠ '.' := by
    intro hc
    rw [hc] at h
    exact absurd h (by decide)
  simpa using hne

/-- Splitting at the first point, when the integer part is made of digits. -/
theorem span_point (whole rest : List Char) (h : whole.all Char.isDigit = true) :
    (whole ++ '.' :: rest).span (· != '.') = (whole, '.' :: rest) := by
  rw [List.span_eq_take_drop]
  induction whole with
  | nil => simp [List.takeWhile_cons, List.dropWhile_cons]
  | cons c cs ih =>
    simp only [List.all_cons, Bool.and_eq_true] at h
    have hc := not_point_of_isDigit c h.1
    have ih2 := ih h.2
    simp only [Prod.mk.injEq] at ih2
    simp only [List.cons_append, List.takeWhile_cons, List.dropWhile_cons, hc, if_true,
      ih2.1, ih2.2]

/-- Splitting a run of digits at the first point finds none. -/
theorem span_no_point (whole : List Char) (h : whole.all Char.isDigit = true) :
    whole.span (· != '.') = (whole, []) := by
  rw [List.span_eq_take_drop]
  induction whole with
  | nil => rfl
  | cons c cs ih =>
    simp only [List.all_cons, Bool.and_eq_true] at h
    have hc := not_point_of_isDigit c h.1
    have ih2 := ih h.2
    simp only [Prod.mk.injEq] at ih2
    simp only [List.takeWhile_cons, List.dropWhile_cons, hc, if_true, ih2.1, ih2.2]


/-- The parser on a well-formed decimal string with a fraction within the precision. -/
theorem parseDecimalString_fraction (precision : Nat) (whole frac : List Char)
    (hw : isDigitRun whole = true) (hf : isDigitRun frac = true)
    (hlen : frac.length ≤ precision) :
    parseDecimalString precision (whole ++ '.' :: frac) =
      .ok (Int.ofNat (digitsToNat whole * 10 ^ precision +
        digitsToNat frac * 10 ^ (precision - frac.length))) := by
  have hwd : whole.all Char.isDigit = true := by
    unfold isDigitRun at hw
    simp only [Bool.and_eq_true] at hw
    exact hw.2
  unfold parseDecimalString
  rw [span_point whole frac hwd]
  simp only [hw, hf, hlen, decide_True, Bool.and_self, if_true]
  rw [digitsToNat_padded precision whole frac hlen]

/-- The parser on a well-formed integer string. -/
theorem parseDecimalString_integer (precision : Nat) (whole : List Char)
    (hw : isDigitRun whole = true) :
    parseDecimalString precision whole =
      .ok (Int.ofNat (digitsToNat whole * 10 ^ precision)) := by
  have hwd : whole.all Char.isDigit = true := by
    unfold isDigitRun at hw
    simp only [Bool.and_eq_true] at hw
    exact hw.2
  unfold parseDecimalString
  rw [span_no_point whole hwd]
  simp only [hw, if_true]

/-- The parser on a number whose scaled value is the natural number `n`. -/
theorem parseAmountToBigInt_scaled (precision : Nat) (q : ℚ) (n : Nat)
    (h : q * (10 : ℚ) ^ precision = (n : ℚ)) :
    parseAmountToBigInt precision (.number q) = .ok (Int.ofNat n) := by
  have hq : 0 ≤ q := by
    have h10 : (0 : ℚ) < (10 : ℚ) ^ precision := by positivity
    have hn : (0 : ℚ) ≤ (n : ℚ) := Nat.cast_nonneg n
    rw [← h] at hn
    exact nonneg_of_mul_nonneg_left hn h10
  show (if 0 ≤ q ∧ (q * (10 : ℚ) ^ precision).den = 1 then
      Except.ok (q * (10 : ℚ) ^ precision).num else Except.error JsError.invalidAmount) = _
  rw [h]
  simp [hq]

/-- Scaling a decimal value with `k` fraction digits by a precision of at least `k`. -/
theorem decimal_scaled (precision : Nat) (w f k : Nat) (hk : k ≤ precision) :
    ((w : ℚ) + (f : ℚ) / (10 : ℚ) ^ k) * (10 : ℚ) ^ precision =
      ((w * 10 ^ precision + f * 10 ^ (precision - k) : Nat) : ℚ) := by
  have h : (10 : ℚ) ^ precision = (10 : ℚ) ^ k * (10 : ℚ) ^ (precision - k) := by
    rw [← pow_add]
    congr 1
    omega
  have h10 : ((10 : ℚ) ^ k) ≠ 0 := by positivity
  push_cast
  rw [add_mul, div_mul_eq_mul_div]
  congr 1
  rw [h]
  field_simp
  ring


/-- A decimal with a fraction within the precision parses to the same count of smallest units
as a number and as its string. -/
theorem parseAmountToBigInt_fraction_both (precision : Nat) (whole frac : List Char)
    (hw : isDigitRun whole = true) (hf : isDigitRun frac = true)
    (hlen : frac.length ≤ precision) :
    parseAmountToBigInt precision
        (.number ((digitsToNat whole : ℚ) + (digitsToNat frac : ℚ) / (10 : ℚ) ^ frac.length)) =
        .ok (Int.ofNat (digitsToNat whole * 10 ^ precision +
          digitsToNat frac * 10 ^ (precision - frac.length))) ∧
      parseAmountToBigInt precision (.str (String.mk (whole ++ '.' :: frac))) =
        .ok (Int.ofNat (digitsToNat whole * 10 ^ precision +
          digitsToNat frac * 10 ^ (precision - frac.length))) :=
  ⟨parseAmountToBigInt_scaled precision _ _ (decimal_scaled precision _ _ _ hlen),
    parseDecimalString_fraction precision whole frac hw hf hlen⟩

/-- A whole amount parses to the same count of smallest units as a number and as its
string. -/
theorem parseAmountToBigInt_integer_both (precision : Nat) (whole : List Char)
    (hw : isDigitRun whole = true) :
    parseAmountToBigInt precision (.number (digitsToNat whole : ℚ)) =
        .ok (Int.ofNat (digitsToNat whole * 10 ^ precision)) ∧
      parseAmountToBigInt precision (.str (String.mk whole)) =
        .ok (Int.ofNat (digitsToNat whole * 10 ^ precision)) := by
  refine ⟨parseAmountToBigInt_scaled precision _ _ ?_, parseDecimalString_integer precision whole hw⟩
  push_cast
  ring

/-- The amount 1.1234123 as a number and as a string, at a precision of at least seven. -/
theorem parseAmountToBigInt_seven_digits (precision : Nat) (hp : 7 ≤ precision) :
    parseAmountToBigInt precision (.number 1.1234123) =
        .ok (Int.ofNat (1 * 10 ^ precision + 1234123 * 10 ^ (precision - 7))) ∧
      parseAmountToBigInt precision (.str "1.1234123") =
        .ok (Int.ofNat (1 * 10 ^ precision + 1234123 * 10 ^ (precision - 7))) := by
  have h := parseAmountToBigInt_fraction_both precision ['1']
    ['1', '2', '3', '4', '1', '2', '3'] rfl rfl hp
  have h1 : digitsToNat ['1'] = 1 := rfl
  have h2 : digitsToNat ['1', '2', '3', '4', '1', '2', '3'] = 1234123 := rfl
  have hq : ((1 : Nat) : ℚ) + ((1234123 : Nat) : ℚ) / (10 : ℚ) ^ 7 = 1.1234123 := by norm_num
  simp only [List.length_cons, List.length_nil, h1, h2] at h
  rw [hq] at h
  exact h

/-- The amount 0.000001 as a number and as a string, at a precision of at least six. -/
theorem parseAmountToBigInt_micro (precision : Nat) (hp : 6 ≤ precision) :
    parseAmountToBigInt precision (.number 0.000001) =
        .ok (Int.ofNat (0 * 10 ^ precision + 1 * 10 ^ (precision - 6))) ∧
      parseAmountToBigInt precision (.str "0.000001") =
        .ok (Int.ofNat (0 * 10 ^ precision + 1 * 10 ^ (precision - 6))) := by
  have h := parseAmountToBigInt_fraction_both precision ['0']
    ['0', '0', '0', '0', '0', '1'] rfl rfl hp
  have h1 : digitsToNat ['0'] = 0 := rfl
  have h2 : digitsToNat ['0', '0', '0', '0', '0', '1'] = 1 := rfl
  have hq : ((0 : Nat) : ℚ) + ((1 : Nat) : ℚ) / (10 : ℚ) ^ 6 = 0.000001 := by norm_num
  simp only [List.length_cons, List.length_nil, h1, h2] at h
  rw [hq] at h
  exact h

/-- Zero as a number and as the strings "0" and "0.000000". -/
theorem parseAmountToBigInt_zero (precision : Nat) (hp : 6 ≤ precision) :
    parseAmountToBigInt precision (.number 0) = .ok 0 ∧
      parseAmountToBigInt precision (.str "0") = .ok 0 ∧
      parseAmountToBigInt precision (.str "0.000000") = .ok 0 := by
  have h := parseAmountToBigInt_integer_both precision ['0'] rfl
  have h1 : digitsToNat ['0'] = 0 := rfl
  have g := parseDecimalString_fraction precision ['0'] ['0', '0', '0', '0', '0', '0'] rfl rfl hp
  have h2 : digitsToNat ['0', '0', '0', '0', '0', '0'] = 0 := rfl
  simp only [h1, h2, Nat.cast_zero, zero_mul, add_zero] at h g
  exact ⟨h.1, h.2, g⟩

/-- One as a number and as a string. -/
theorem parseAmountToBigInt_one (precision : Nat) :
    parseAmountToBigInt precision (.number 1) = .ok (Int.ofNat (1 * 10 ^ precision)) ∧
      parseAmountToBigInt precision (.str "1") = .ok (Int.ofNat (1 * 10 ^ precision)) := by
  have h := parseAmountToBigInt_integer_both precision ['1'] rfl
  have h1 : digitsToNat ['1'] = 1 := rfl
  simp only [h1, Nat.cast_one] at h
  exact h

/-- C13: at every precision of at least seven digits, a non-negative decimal amount whose
fraction fits the precision parses to the same integer as a number and as its decimal
string, with and without a fraction part; 0, "0" and "0.000000" parse to zero; 0.000001 and
"0.000001" agree; 1 and "1" agree; 1.1234123 and "1.1234123" agree, and their result differs
from the result for 1. The parser is modelled from the specification. -/
theorem parseAmountToBigInt_number_agrees_with_string (precision : Nat)
    (whole frac : List Char) (hw : isDigitRun whole = true) (hf : isDigitRun frac = true)
    (hlen : frac.length ≤ precision) (hp : 7 ≤ precision) :
    (∃ n : Int,
        parseAmountToBigInt precision
          (.number ((digitsToNat whole : ℚ) +
            (digitsToNat frac : ℚ) / (10 : ℚ) ^ frac.length)) = .ok n ∧
        parseAmountToBigInt precision (.str (String.mk (whole ++ '.' :: frac))) = .ok n) ∧
      (∃ n : Int,
        parseAmountToBigInt precision (.number (digitsToNat whole : ℚ)) = .ok n ∧
        parseAmountToBigInt precision (.str (String.mk whole)) = .ok n) ∧
      (parseAmountToBigInt precision (.number 0) = .ok 0 ∧
        parseAmountToBigInt precision (.str "0") = .ok 0 ∧
        parseAmountToBigInt precision (.str "0.000000") = .ok 0) ∧
      parseAmountToBigInt precision (.number 0.000001) =
        parseAmountToBigInt precision (.str "0.000001") ∧
      parseAmountToBigInt precision (.number 1) =
        parseAmountToBigInt precision (.str "1") ∧
      parseAmountToBigInt precision (.number 1.1234123) =
        parseAmountToBigInt precision (.str "1.1234123") ∧
      parseAmountToBigInt precision (.number 1.1234123) ≠
        parseAmountToBigInt precision (.number 1) := by
  refine ⟨⟨_, parseAmountToBigInt_fraction_both precision whole frac hw hf hlen⟩,
    ⟨_, parseAmountToBigInt_integer_both precision whole hw⟩,
    parseAmountToBigInt_zero precision (by omega), ?_, ?_, ?_, ?_⟩
  · exact (parseAmountToBigInt_micro precision (by omega)).1.trans
      (parseAmountToBigInt_micro precision (by omega)).2.symm
  · exact (parseAmountToBigInt_one precision).1.trans (parseAmountToBigInt_one precision).2.symm
  · exact (parseAmountToBigInt_seven_digits precision hp).1.trans
      (parseAmountToBigInt_seven_digits precision hp).2.symm
  · rw [(parseAmountToBigInt_seven_digits precision hp).1, (parseAmountToBigInt_one precision).1]
    intro h
    have h' := Except.ok.inj h
    have hpos : 0 < 10 ^ (precision - 7) := by positivity
    have h1 : (1 * 10 ^ precision + 1234123 * 10 ^ (precision - 7) : Nat) =
        1 * 10 ^ precision := Int.ofNat.inj h'
    omega

/-- The agreement theorem at precision 18 for the amount 42.5. -/
theorem parseAmountToBigInt_number_agrees_with_string_witness :
    parseAmountToBigInt 18 (.number 1.1234123) = parseAmountToBigInt 18 (.str "1.1234123") ∧
      parseAmountToBigInt 18 (.number 1.1234123) ≠ parseAmountToBigInt 18 (.number 1) :=
  (parseAmountToBigInt_number_agrees_with_string 18 ['4', '2'] ['5'] rfl rfl (by decide)
    (by decide)).2.2.2.2.2

/-! ### Amounts embedded by the handlers -/

/-- Every successful run of `createAndDistribute`, with the conversions it went through. -/
theorem FungibleTokenContract.createAndDistribute_ok (env : Env)
    (inputs : ComputeInputs) (out : Outputs)
    (h : FungibleTokenContract.createAndDistribute env inputs = .ok out) :
    ∃ (payload : JsValue) (v t : Int) (amount total : String),
      env.jsonParse inputs.transaction.inputs = .ok payload ∧
      env.toBigInt (inputs.transaction.value.nullish (.number 0)) = .ok v ∧
      env.bigIntToHexString v = .ok amount ∧
      env.toBigInt ((payload.optionalGet "totalSupply").nullish (.number 0)) = .ok t ∧
      env.bigIntToHexString t = .ok total ∧
      out = ⟨inputs,
        [.create ⟨.this, total, amount, ⟨inputs.transaction.from_⟩, .this,
          [⟨.this, amount, .address ⟨inputs.transaction.from_⟩,
            [⟨⟨"metadata"⟩, ⟨"metadata", .metadata ⟨payload⟩⟩⟩]⟩]⟩]⟩ := by
  unfold FungibleTokenContract.createAndDistribute at h
  cases hp : env.jsonParse inputs.transaction.inputs with
  | error e => simp [hp, bind, Except.bind] at h
  | ok payload =>
    cases hv : env.toBigInt (inputs.transaction.value.nullish (.number 0)) with
    | error e => simp [hp, hv, bind, Except.bind] at h
    | ok v =>
      cases ha : env.bigIntToHexString v with
      | error e => simp [hp, hv, ha, bind, Except.bind] at h
      | ok amount =>
        cases ht : env.toBigInt ((payload.optionalGet "totalSupply").nullish (.number 0)) with
        | error e =>
          simp [hp, hv, ha, ht, bind, Except.bind, TokenDistributionBuilder.build,
            TokenDistributionBuilder.new, TokenDistributionBuilder.setProgramId,
            TokenDistributionBuilder.setAmount, TokenDistributionBuilder.setReceiver,
            TokenDistributionBuilder.extendUpdateFields] at h
        | ok t =>
          cases hh : env.bigIntToHexString t with
          | error e =>
            simp [hp, hv, ha, ht, hh, bind, Except.bind, TokenDistributionBuilder.build,
              TokenDistributionBuilder.new, TokenDistributionBuilder.setProgramId,
              TokenDistributionBuilder.setAmount, TokenDistributionBuilder.setReceiver,
              TokenDistributionBuilder.extendUpdateFields] at h
          | ok total =>
            refine ⟨payload, v, t, amount, total, rfl, rfl, ha, ht, hh, ?_⟩
            simp only [hp, hv, ha, ht, hh, bind, Except.bind] at h
            exact (Except.ok.inj h).symm

/-- Every successful run of `FungibleTokenContract.burn`, with the conversions it went
through. -/
theorem FungibleTokenContract.burn_ok (env : Env) (inputs : ComputeInputs) (out : Outputs)
    (h : FungibleTokenContract.burn env inputs = .ok out) :
    ∃ (v : Int) (amount : String),
      env.toBigInt (inputs.transaction.value.nullish (.number 0)) = .ok v ∧
      env.bigIntToHexString v = .ok amount ∧
      out = ⟨inputs,
        [.burn ⟨.this, ⟨inputs.transaction.from_⟩, ⟨"this"⟩,
          .address ⟨inputs.transaction.from_⟩, amount⟩]⟩ := by
  unfold FungibleTokenContract.burn at h
  cases hv : env.toBigInt (inputs.transaction.value.nullish (.number 0)) with
  | error e => simp [hv, bind, Except.bind] at h
  | ok v =>
    cases ha : env.bigIntToHexString v with
    | error e => simp [hv, ha, bind, Except.bind] at h
    | ok amount =>
      refine ⟨v, amount, rfl, ha, ?_⟩
      simp only [hv, ha, bind, Except.bind] at h
      exact (Except.ok.inj h).symm

/-- Every successful run of `FungibleTokenContract.mint`, with the conversions it went
through. -/
theorem FungibleTokenContract.mint_ok (env : Env) (inputs : ComputeInputs) (out : Outputs)
    (h : FungibleTokenContract.mint env inputs = .ok out) :
    ∃ (v : Int) (proceeds payment : String),
      env.toBigInt (inputs.transaction.value.nullish (.number 0)) = .ok v ∧
      env.bigIntToHexString (Int.tdiv v 1) = .ok proceeds ∧
      env.bigIntToHexString v = .ok payment ∧
      out = ⟨inputs,
        [.transfer ⟨.this, .address ⟨inputs.transaction.from_⟩, proceeds,
            ⟨inputs.transaction.to_⟩⟩,
         .transfer ⟨.address ⟨inputs.transaction.from_⟩, .this, payment,
            ⟨inputs.transaction.programId⟩⟩]⟩ := by
  unfold FungibleTokenContract.mint at h
  cases hv : env.toBigInt (inputs.transaction.value.nullish (.number 0)) with
  | error e => simp [hv, bind, Except.bind] at h
  | ok v =>
    cases hq : env.bigIntToHexString (Int.tdiv v 1) with
    | error e =>
      rw [Int.tdiv_one] at hq
      simp [hv, hq, bind, Except.bind] at h
    | ok proceeds =>
      cases ha : env.bigIntToHexString v with
      | error e =>
        rw [Int.tdiv_one, ha] at hq
        exact absurd hq (by simp)
      | ok payment =>
        refine ⟨v, proceeds, payment, rfl, hq, ha, ?_⟩
        simp only [hv, hq, ha, bind, Except.bind] at h
        exact (Except.ok.inj h).symm

/-- Every successful run of `FungibleTokenContract.create`, with the conversions it went
through. -/
theorem FungibleTokenContract.create_ok (env : Env) (inputs : ComputeInputs) (out : Outputs)
    (h : FungibleTokenContract.create env inputs = .ok out) :
    ∃ (payload raw : JsValue) (t : Int) (total zero : String),
      env.jsonParse inputs.inputs = .ok payload ∧
      payload.member "totalSupply" = .ok raw ∧
      env.toBigInt raw = .ok t ∧
      env.bigIntToHexString t = .ok total ∧
      env.bigIntToHexString 0 = .ok zero ∧
      out = ⟨inputs,
        [.create ⟨.this, total, zero, ⟨inputs.transaction.from_⟩, .this, []⟩]⟩ := by
  unfold FungibleTokenContract.create at h
  cases hp : env.jsonParse inputs.inputs with
  | error e => simp [hp, bind, Except.bind] at h
  | ok payload =>
    cases hm : payload.member "totalSupply" with
    | error e => simp [hp, hm, bind, Except.bind] at h
    | ok raw =>
      cases ht : env.toBigInt raw with
      | error e => simp [hp, hm, ht, bind, Except.bind] at h
      | ok t =>
        cases hh : env.bigIntToHexString t with
        | error e => simp [hp, hm, ht, hh, bind, Except.bind] at h
        | ok total =>
          cases hz : env.bigIntToHexString 0 with
          | error e => simp [hp, hm, ht, hh, hz, bind, Except.bind] at h
          | ok zero =>
            refine ⟨payload, raw, t, total, zero, rfl, hm, ht, hh, rfl, ?_⟩
            simp only [hp, hm, ht, hh, hz, bind, Except.bind] at h
            exact (Except.ok.inj h).symm

/-- The hex encoder of the specification always answers with a string that starts with
"0x". -/
theorem bigIntToHexString_starts_0x (n : Int) (s : String) (h : bigIntToHexString n = .ok s) :
    ∃ digits : String, s = "0x" ++ digits := by
  unfold bigIntToHexString at h
  split at h
  · exact absurd h (by simp)
  · exact ⟨_, (Except.ok.inj h).symm⟩

/-- The hex encoder of the specification succeeds on every natural number. -/
theorem bigIntToHexString_ofNat (n : Nat) :
    bigIntToHexString (Int.ofNat n) = .ok ("0x" ++ String.mk (Nat.toDigits 16 n)) := by
  have hn : ¬ (Int.ofNat n < 0) := fun hlt =>
    absurd (Int.ofNat_nonneg n) (Int.not_le.mpr hlt)
  unfold bigIntToHexString
  simp only [hn, if_false]
  rfl

/-- C12 fails for a fractional amount and for the scale of a whole one. On the attached value
"1.5", which `parseAmountToBigInt` accepts at every precision of at least one digit,
`FungibleTokenContract.burn` throws the SyntaxError of `BigInt`. On the attached value "1" it
embeds "0x1", the encoding of 1, while `parseAmountToBigInt` gives ten to the precision. -/
theorem FungibleTokenContract.burn_not_parseAmount :
    FungibleTokenContract.burn sampleEnv (sampleCall "burn" (.str "1.5") "") =
        .error .syntaxError ∧
      (∀ precision : Nat, 1 ≤ precision →
        ∃ (n : Int) (s : String),
          parseAmountToBigInt precision (.str "1.5") = .ok n ∧ bigIntToHexString n = .ok s) ∧
      FungibleTokenContract.burn sampleEnv (sampleCall "burn" (.str "1") "") =
        .ok ⟨sampleCall "burn" (.str "1") "",
          [.burn ⟨.this, ⟨"0xA"⟩, ⟨"this"⟩, .address ⟨"0xA"⟩, "0x1"⟩]⟩ ∧
      bigIntToHexString 1 = .ok "0x1" ∧
      (∀ precision : Nat, 1 ≤ precision →
        ∃ n : Int, parseAmountToBigInt precision (.str "1") = .ok n ∧ n ≠ 1) := by
  refine ⟨rfl, ?_, rfl, rfl, ?_⟩
  · intro precision hp
    have h := parseDecimalString_fraction precision ['1'] ['5'] rfl rfl hp
    exact ⟨_, _, h, bigIntToHexString_ofNat _⟩
  · intro precision hp
    have h := parseDecimalString_integer precision ['1'] rfl
    refine ⟨_, h, ?_⟩
    have h1 : digitsToNat ['1'] = 1 := rfl
    have h10 : 1 < 10 ^ precision := Nat.one_lt_pow (by omega) (by decide)
    rw [h1]
    intro hn
    have hn' : ((1 * 10 ^ precision : Nat) : Int) = ((1 : Nat) : Int) := hn
    have hn2 : 1 * 10 ^ precision = 1 := Int.ofNat.inj hn'
    omega

/-- C12, amended: every amount that a handler of `FungibleTokenContract` embeds is the output
of `bigIntToHexString` on the result of `BigInt(...)`, applied to the attached value (0 when
absent) in `burn`, `mint` and `createAndDistribute`, to the payload total supply in `create`
and `createAndDistribute`, and to the constant 0 for the initialized supply of `create`; no
decimal scaling takes place. `SnakeProgram.burn` hands the attached value as it is, and
`SnakeProgram.mint` the BigInt payment and returned values, to the builder helpers. With the
encoder of the specification every such output starts with "0x". -/
theorem FungibleTokenContract.amounts_through_BigInt (env : Env) (inputs : ComputeInputs) :
    (∀ out, FungibleTokenContract.burn env inputs = .ok out →
      ∃ (v : Int) (amount : String),
        env.toBigInt (inputs.transaction.value.nullish (.number 0)) = .ok v ∧
        env.bigIntToHexString v = .ok amount ∧ out.amounts = [amount]) ∧
    (∀ out, FungibleTokenContract.create env inputs = .ok out →
      ∃ (payload raw : JsValue) (t : Int) (total zero : String),
        env.jsonParse inputs.inputs = .ok payload ∧
        payload.member "totalSupply" = .ok raw ∧
        env.toBigInt raw = .ok t ∧ env.bigIntToHexString t = .ok total ∧
        env.bigIntToHexString 0 = .ok zero ∧ out.amounts = [total, zero]) ∧
    (∀ out, FungibleTokenContract.createAndDistribute env inputs = .ok out →
      ∃ (payload : JsValue) (v t : Int) (amount total : String),
        env.jsonParse inputs.transaction.inputs = .ok payload ∧
        env.toBigInt (inputs.transaction.value.nullish (.number 0)) = .ok v ∧
        env.bigIntToHexString v = .ok amount ∧
        env.toBigInt ((payload.optionalGet "totalSupply").nullish (.number 0)) = .ok t ∧
        env.bigIntToHexString t = .ok total ∧ out.amounts = [total, amount, amount]) ∧
    (∀ out, FungibleTokenContract.mint env inputs = .ok out →
      ∃ (v : Int) (proceeds payment : String),
        env.toBigInt (inputs.transaction.value.nullish (.number 0)) = .ok v ∧
        env.bigIntToHexString (Int.tdiv v 1) = .ok proceeds ∧
        env.bigIntToHexString v = .ok payment ∧ out.amounts = [proceeds, payment]) ∧
    (SnakeProgram.burn env inputs).trace =
      [.builder (.buildBurnInstruction
        ⟨inputs.transaction.from_, inputs.transaction.from_, THIS,
          inputs.transaction.programId, inputs.transaction.value⟩)] ∧
    (∀ v, env.toBigInt inputs.transaction.value = .ok v →
      (SnakeProgram.mint env inputs).trace =
        [.builder (.buildMintInstructions
          ⟨inputs.transaction.from_, inputs.transaction.programId, env.ETH_PROGRAM_ADDRESS, v,
            Int.tdiv v 2⟩)]) ∧
    (∀ (n : Int) (s : String), bigIntToHexString n = .ok s →
      ∃ digits : String, s = "0x" ++ digits) := by
  refine ⟨?_, ?_, ?_, ?_, ?_, ?_, bigIntToHexString_starts_0x⟩
  · intro out h
    obtain ⟨v, amount, hv, ha, hout⟩ := FungibleTokenContract.burn_ok env inputs out h
    exact ⟨v, amount, hv, ha, by rw [hout]; rfl⟩
  · intro out h
    obtain ⟨payload, raw, t, total, zero, hp, hm, ht, hh, hz, hout⟩ :=
      FungibleTokenContract.create_ok env inputs out h
    exact ⟨payload, raw, t, total, zero, hp, hm, ht, hh, hz, by rw [hout]; rfl⟩
  · intro out h
    obtain ⟨payload, v, t, amount, total, hp, hv, ha, ht, hh, hout⟩ :=
      FungibleTokenContract.createAndDistribute_ok env inputs out h
    exact ⟨payload, v, t, amount, total, hp, hv, ha, ht, hh, by rw [hout]; rfl⟩
  · intro out h
    obtain ⟨v, proceeds, payment, hv, hq, ha, hout⟩ :=
      FungibleTokenContract.mint_ok env inputs out h
    exact ⟨v, proceeds, payment, hv, hq, ha, by rw [hout]; rfl⟩
  · unfold SnakeProgram.burn
    exact Exec.bind_pure_trace _ _
  · intro v hv
    unfold SnakeProgram.mint
    simp only [hv, Exec.bind_eval_ok]
    exact Exec.bind_pure_trace _ _

/-- A mint with attached value 100: both amounts of the output are "0x64". -/
theorem FungibleTokenContract.amounts_through_BigInt_witness :
    ∃ (v : Int) (proceeds payment : String),
      sampleEnv.toBigInt ((JsValue.str "100").nullish (.number 0)) = .ok v ∧
      bigIntToHexString (Int.tdiv v 1) = .ok proceeds ∧
      bigIntToHexString v = .ok payment ∧
      Outputs.amounts ⟨sampleCall "mint" (.str "100") "",
        [.transfer ⟨.this, .address ⟨"0xA"⟩, "0x64", ⟨"0xT"⟩⟩,
         .transfer ⟨.address ⟨"0xA"⟩, .this, "0x64", ⟨"0xP"⟩⟩]⟩ = [proceeds, payment] :=
  (FungibleTokenContract.amounts_through_BigInt sampleEnv
    (sampleCall "mint" (.str "100") "")).2.2.2.1 _ rfl

/-- C16: whenever `createAndDistribute` succeeds, the initialized supply of the create
instruction and the amount of its single distribution are the same string, the hex encoding
of the attached value (0 when absent), and the total supply is the hex encoding of the payload
member `totalSupply` (0 when the payload has none). Nothing relates the two: with attached
value 100 and an empty payload the call succeeds with initialized supply "0x64", the encoding
of 100, and total supply "0x0", the encoding of 0. -/
theorem FungibleTokenContract.createAndDistribute_supplies_unrelated :
    (∀ (env : Env) (inputs : ComputeInputs) (out : Outputs),
      FungibleTokenContract.createAndDistribute env inputs = .ok out →
      ∃ (payload : JsValue) (v t : Int) (amount total : String),
        env.jsonParse inputs.transaction.inputs = .ok payload ∧
        env.toBigInt (inputs.transaction.value.nullish (.number 0)) = .ok v ∧
        env.bigIntToHexString v = .ok amount ∧
        env.toBigInt ((payload.optionalGet "totalSupply").nullish (.number 0)) = .ok t ∧
        env.bigIntToHexString t = .ok total ∧
        out = ⟨inputs,
          [.create ⟨.this, total, amount, ⟨inputs.transaction.from_⟩, .this,
            [⟨.this, amount, .address ⟨inputs.transaction.from_⟩,
              [⟨⟨"metadata"⟩, ⟨"metadata", .metadata ⟨payload⟩⟩⟩]⟩]⟩]⟩) ∧
    (FungibleTokenContract.createAndDistribute sampleEnv
        (sampleCall "createAndDistribute" (.str "100") "\x7b\x7d") =
      .ok ⟨sampleCall "createAndDistribute" (.str "100") "\x7b\x7d",
        [.create ⟨.this, "0x0", "0x64", ⟨"0xA"⟩, .this,
          [⟨.this, "0x64", .address ⟨"0xA"⟩,
            [⟨⟨"metadata"⟩, ⟨"metadata", .metadata ⟨.obj []⟩⟩⟩]⟩]⟩]⟩ ∧
      bigIntToHexString 100 = .ok "0x64" ∧ bigIntToHexString 0 = .ok "0x0" ∧
      (0 : Int) < 100) :=
  ⟨FungibleTokenContract.createAndDistribute_ok, rfl, rfl, rfl, by decide⟩

/-- The general part at the call with attached value 100 and an empty payload. -/
theorem FungibleTokenContract.createAndDistribute_supplies_unrelated_witness :
    ∃ (payload : JsValue) (v t : Int) (amount total : String),
      JSON.parse "\x7b\x7d" = .ok payload ∧
      sampleEnv.toBigInt ((JsValue.str "100").nullish (.number 0)) = .ok v ∧
      bigIntToHexString v = .ok amount ∧
      sampleEnv.toBigInt ((payload.optionalGet "totalSupply").nullish (.number 0)) = .ok t ∧
      bigIntToHexString t = .ok total ∧
      (⟨sampleCall "createAndDistribute" (.str "100") "\x7b\x7d",
        [.create ⟨.this, "0x0", "0x64", ⟨"0xA"⟩, .this,
          [⟨.this, "0x64", .address ⟨"0xA"⟩,
            [⟨⟨"metadata"⟩, ⟨"metadata", .metadata ⟨.obj []⟩⟩⟩]⟩]⟩]⟩ : Outputs) =
        ⟨sampleCall "createAndDistribute" (.str "100") "\x7b\x7d",
          [.create ⟨.this, total, amount, ⟨"0xA"⟩, .this,
            [⟨.this, amount, .address ⟨"0xA"⟩,
              [⟨⟨"metadata"⟩, ⟨"metadata", .metadata ⟨payload⟩⟩⟩]⟩]⟩]⟩ :=
  FungibleTokenContract.createAndDistribute_supplies_unrelated.1 sampleEnv
    (sampleCall "createAndDistribute" (.str "100") "\x7b\x7d") _ rfl

/-! ### The ERC-20 example -/

/-- A magnitude below 2^53 has no bit beyond those of a double. -/
theorem Erc20.excessBits_small (m : Nat) (h : m < 2 ^ 53) : Erc20.excessBits m m = 0 := by
  cases m with
  | zero => rfl
  | succ k =>
    unfold Erc20.excessBits
    rw [if_pos h]

/-- An integer of magnitude below 2^53 is a double: the result is exact. -/
theorem Erc20.toNumber_safe (z : Int) (h : z.natAbs < 2 ^ 53) :
    Erc20.toNumber z = .int z := by
  unfold Erc20.toNumber
  simp only [Erc20.excessBits_small _ h, pow_zero, Nat.div_one, Nat.mod_one, Nat.mul_zero,
    Nat.mul_one]
  have h1 : ¬ (1 < 0 ∨ (0 = 1 ∧ z.natAbs % 2 = 1)) := by omega
  have h2 : ¬ (972 ≤ 0 ∨ (0 = 971 ∧ z.natAbs = 2 ^ 53)) := by omega
  simp only [h1, h2, if_false]
  congr 1
  by_cases hz : z < 0
  · simp only [hz, if_true]
    show -(z.natAbs : Int) = z
    omega
  · simp only [hz, if_false]
    show (z.natAbs : Int) = z
    omega

/-- Reading the own key just written gives the written value. -/
theorem Erc20.Table.own_put_same (t : Erc20.Table) (k : String) (v : Erc20.Num) :
    (t.put k v).own k = some v := by
  induction t with
  | nil => simp [Erc20.Table.put, Erc20.Table.own]
  | cons kv rest ih =>
    obtain ⟨k', w⟩ := kv
    by_cases h : k' = k
    · simp [Erc20.Table.put, Erc20.Table.own, h]
    · simp [Erc20.Table.put, Erc20.Table.own, h, ih]

/-- Writing one key leaves the other own keys as they were. -/
theorem Erc20.Table.own_put_other (t : Erc20.Table) (k k' : String) (v : Erc20.Num)
    (hne : k' ≠ k) : (t.put k v).own k' = t.own k' := by
  induction t with
  | nil =>
    have h : ¬ k = k' := fun h => hne h.symm
    simp [Erc20.Table.put, Erc20.Table.own, h]
  | cons kv rest ih =>
    obtain ⟨k0, w⟩ := kv
    have hkk : ¬ k = k' := fun h => hne h.symm
    by_cases h : k0 = k
    · subst h
      simp [Erc20.Table.put, Erc20.Table.own, hkk]
    · by_cases h2 : k0 = k'
      · subst h2
        simp [Erc20.Table.put, Erc20.Table.own, h]
      · simp [Erc20.Table.put, Erc20.Table.own, h, h2, ih]

/-- Writing a key back with the value it holds changes nothing. -/
theorem Erc20.Table.put_own_self (t : Erc20.Table) (k : String) (v : Erc20.Num)
    (h : t.own k = some v) : t.put k v = t := by
  induction t with
  | nil => simp [Erc20.Table.own] at h
  | cons kv rest ih =>
    obtain ⟨k0, w⟩ := kv
    by_cases h0 : k0 = k
    · simp [Erc20.Table.own, h0] at h
      simp [Erc20.Table.put, h0, h]
    · simp [Erc20.Table.own, h0] at h
      simp [Erc20.Table.put, h0, ih h]

/-- The second of two writes to one key wins. -/
theorem Erc20.Table.put_put_same (t : Erc20.Table) (k : String) (v w : Erc20.Num) :
    (t.put k v).put k w = t.put k w := by
  induction t with
  | nil => simp [Erc20.Table.put]
  | cons kv rest ih =>
    obtain ⟨k0, u⟩ := kv
    by_cases h0 : k0 = k
    · simp [Erc20.Table.put, h0]
    · simp [Erc20.Table.put, h0, ih]

/-- A read that finds an own value is a lookup among the own keys, under a key other than
`__proto__`. -/
theorem Erc20.Table.get_own (t : Erc20.Table) (k : String) (v : Erc20.Num)
    (h : t.get k = .own v) : k ≠ "__proto__" ∧ t.own k = some v := by
  unfold Erc20.Table.get at h
  by_cases hk : k = "__proto__"
  · simp [hk] at h
  · simp only [hk, if_false] at h
    refine ⟨hk, ?_⟩
    cases ho : t.own k with
    | none =>
      simp only [ho] at h
      split at h <;> simp at h
    | some w =>
      simp only [ho] at h
      exact congrArg some (Erc20.Read.own.inj h)

/-- An own value under a key other than `__proto__` is what the read finds. -/
theorem Erc20.Table.get_of_own (t : Erc20.Table) (k : String) (v : Erc20.Num)
    (hk : k ≠ "__proto__") (h : t.own k = some v) : t.get k = .own v := by
  unfold Erc20.Table.get
  simp [hk, h]

/-- Changing one integer entry by `d` changes the sum of the table by `d`. -/
theorem Erc20.Table.sum_put_int (t : Erc20.Table) (k : String) (n d : Int)
    (h : t.own k = some (.int n)) :
    (t.put k (.int (n + d))).sum =
      match t.sum with
      | .int total => .int (total + d)
      | _ => .nan := by
  induction t with
  | nil => simp [Erc20.Table.own] at h
  | cons kv rest ih =>
    obtain ⟨k0, w⟩ := kv
    by_cases h0 : k0 = k
    · simp [Erc20.Table.own, h0] at h
      subst h
      simp only [Erc20.Table.put, h0, if_true, Erc20.Table.sum]
      cases Erc20.Table.sum rest <;> simp [Int.add_assoc]
    · simp [Erc20.Table.own, h0] at h
      cases w with
      | int m =>
        simp only [Erc20.Table.put, h0, if_false, Erc20.Table.sum]
        rw [ih h]
        cases Erc20.Table.sum rest <;> simp
        omega
      | nan => simp [Erc20.Table.put, h0, Erc20.Table.sum]
      | inf s => simp [Erc20.Table.put, h0, Erc20.Table.sum]
      | text => simp [Erc20.Table.put, h0, Erc20.Table.sum]

/-- The sum of a table is an integer or NaN. -/
theorem Erc20.Table.sum_int_or_nan (t : Erc20.Table) :
    (∃ total, t.sum = .int total) ∨ t.sum = .nan := by
  induction t with
  | nil => exact Or.inl ⟨0, rfl⟩
  | cons kv rest ih =>
    obtain ⟨k0, w⟩ := kv
    cases w with
    | int m =>
      rcases ih with ⟨total, ht⟩ | ht
      · exact Or.inl ⟨total + m, by simp [Erc20.Table.sum, ht]⟩
      · exact Or.inr (by simp [Erc20.Table.sum, ht])
    | nan => exact Or.inr rfl
    | inf s => exact Or.inr rfl
    | text => exact Or.inr rfl

/-- C17 fails beyond the integers a double holds exactly. In the initial state of the example
the sender "0x1" holds 4200000 and the recipient "0x2" holds 0; for the amount
-9007199254740991 the balance is not less than the amount and `transfer` succeeds, but the
sender's new balance is the double 9007199258940992, not 4200000 plus 9007199254740991, and
the sum of all balances becomes 4200001 where it was 4200000. -/
theorem Erc20.transfer_rounds :
    Erc20.FAKE_ERC20_STATE.balances.get "0x1" = .own (.int 4200000) ∧
      Erc20.FAKE_ERC20_STATE.balances.get "0x2" = .own (.int 0) ∧
      ¬ ((4200000 : Int) < -9007199254740991) ∧
      (Erc20.transfer Erc20.FAKE_ERC20_STATE "0x1" "0x2" (-9007199254740991)).1 = true ∧
      (Erc20.transfer Erc20.FAKE_ERC20_STATE "0x1" "0x2" (-9007199254740991)).2.balances.get
        "0x1" = .own (.int 9007199258940992) ∧
      (Erc20.transfer Erc20.FAKE_ERC20_STATE "0x1" "0x2" (-9007199254740991)).2.balances.sum =
        .int 4200001 ∧
      Erc20.FAKE_ERC20_STATE.balances.sum = .int 4200000 := by
  decide

/-- C17, amended: `transfer` on the example state, for an integer amount. When the sender's
balance is less than the amount it answers `success: false` and hands the state back
unchanged. When the sender and the recipient both own an integer balance in the table and
the sender's balance is not less than the amount, it answers `success: true`; if moreover
the two new balances are below 2^53 in magnitude, the sum of all balances is unchanged, the
sender holds its balance minus the amount and the recipient its balance plus the amount; a
transfer to oneself leaves the whole state unchanged if the balance and the balance minus
the amount are below 2^53 in magnitude. In every case the allowances, the total supply, the
name, the symbol and the decimals are unchanged. -/
theorem Erc20.transfer_conserves (state : Erc20.State) (address toAddress : String)
    (amount : Int) :
    (∀ b : Int, state.balances.get address = .own (.int b) → b < amount →
      Erc20.transfer state address toAddress amount = (false, state)) ∧
    (∀ b c : Int, state.balances.get address = .own (.int b) →
      state.balances.get toAddress = .own (.int c) → ¬ b < amount →
      (Erc20.transfer state address toAddress amount).1 = true ∧
      (address ≠ toAddress → (b - amount).natAbs < 2 ^ 53 → (c + amount).natAbs < 2 ^ 53 →
        (Erc20.transfer state address toAddress amount).2.balances.sum =
            state.balances.sum ∧
          (Erc20.transfer state address toAddress amount).2.balances.get address =
            .own (.int (b - amount)) ∧
          (Erc20.transfer state address toAddress amount).2.balances.get toAddress =
            .own (.int (c + amount))) ∧
      (address = toAddress → b.natAbs < 2 ^ 53 → (b - amount).natAbs < 2 ^ 53 →
        (Erc20.transfer state address toAddress amount).2 = state)) ∧
    ((Erc20.transfer state address toAddress amount).2.allowances = state.allowances ∧
      (Erc20.transfer state address toAddress amount).2.totalSupply = state.totalSupply ∧
      (Erc20.transfer state address toAddress amount).2.name = state.name ∧
      (Erc20.transfer state address toAddress amount).2.symbol = state.symbol ∧
      (Erc20.transfer state address toAddress amount).2.decimals = state.decimals) := by
  refine ⟨?_, ?_, ?_⟩
  · intro b hb hlt
    unfold Erc20.transfer
    simp [hb, Erc20.lessThan, hlt]
  · intro b c hb hc hge
    have hless : Erc20.lessThan (.own (.int b)) amount = false := by
      simp [Erc20.lessThan, hge]
    obtain ⟨hka, hoa⟩ := Erc20.Table.get_own _ _ _ hb
    obtain ⟨hkt, hot⟩ := Erc20.Table.get_own _ _ _ hc
    refine ⟨?_, ?_, ?_⟩
    · unfold Erc20.transfer
      simp [hb, hless]
    · intro hsame hsafe1 hsafe2
      have hne : toAddress ≠ address := fun h => hsame h.symm
      have hown : (state.balances.put address (.int (b - amount))).own toAddress =
          some (.int c) := by
        rw [Erc20.Table.own_put_other _ _ _ _ hne, hot]
      have hget := Erc20.Table.get_of_own _ _ _ hkt hown
      have hbal : (Erc20.transfer state address toAddress amount).2.balances =
          (state.balances.put address (.int (b - amount))).put toAddress
            (.int (c + amount)) := by
        unfold Erc20.transfer
        simp only [hb, hless, Bool.false_eq_true, if_false, Erc20.minus,
          Erc20.toNumber_safe _ hsafe1, Erc20.Table.set, hka, hkt, hget, Erc20.plus,
          Erc20.toNumber_safe _ hsafe2]
      refine ⟨?_, ?_, ?_⟩
      · have hsub : b - amount = b + (-amount) := Int.sub_eq_add_neg
        rw [hbal, Erc20.Table.sum_put_int _ _ c amount hown, hsub,
          Erc20.Table.sum_put_int _ _ b (-amount) hoa]
        rcases Erc20.Table.sum_int_or_nan state.balances with ⟨total, ht⟩ | ht
        · rw [ht]
          simp
        · rw [ht]
      · rw [hbal]
        apply Erc20.Table.get_of_own _ _ _ hka
        rw [Erc20.Table.own_put_other _ _ _ _ hsame, Erc20.Table.own_put_same]
      · rw [hbal]
        exact Erc20.Table.get_of_own _ _ _ hkt (Erc20.Table.own_put_same _ _ _)
    · intro hsame hsafe0 hsafe1
      subst hsame
      have hget : (state.balances.put address (.int (b - amount))).get address =
          .own (.int (b - amount)) :=
        Erc20.Table.get_of_own _ _ _ hka (Erc20.Table.own_put_same _ _ _)
      have hba : b - amount + amount = b := by omega
      unfold Erc20.transfer
      simp only [hb, hless, Bool.false_eq_true, if_false, Erc20.minus,
        Erc20.toNumber_safe _ hsafe1, Erc20.Table.set, hka, hget, Erc20.plus, hba,
        Erc20.toNumber_safe _ hsafe0, Erc20.Table.put_put_same,
        Erc20.Table.put_own_self _ _ _ hoa]
  · unfold Erc20.transfer
    split <;> simp

/-- The transfer of 1000 from "0x1" to "0x2" in the initial state of the example. -/
theorem Erc20.transfer_conserves_witness :
    (Erc20.transfer Erc20.FAKE_ERC20_STATE "0x1" "0x2" 1000).2.balances.sum =
        Erc20.FAKE_ERC20_STATE.balances.sum ∧
      (Erc20.transfer Erc20.FAKE_ERC20_STATE "0x1" "0x2" 1000).2.balances.get "0x1" =
        .own (.int (4200000 - 1000)) ∧
      (Erc20.transfer Erc20.FAKE_ERC20_STATE "0x1" "0x2" 1000).2.balances.get "0x2" =
        .own (.int (0 + 1000)) :=
  ((Erc20.transfer_conserves Erc20.FAKE_ERC20_STATE "0x1" "0x2" 1000).2.1 4200000 0
    (by decide) (by decide) (by decide)).2.1 (by decide) (by decide) (by decide)

end Versatus
